import Mathlib

/-!
Shallow embedding of the NUMA-aware resource-accounting engine of
`src/maasserver/models/virtualmachine.py` (function `get_vm_host_resources`
and its helpers), together with theorems settling the claims about it.

Modelling conventions:

* Python `int` quantities are `ℕ` where they are accumulated sums of
  non-negative values, and `ℤ` where the source can produce negative values
  (all the `free = total - allocated` fields, which the source does not clamp).
* Python `set`s of core ids are modelled as duplicate-free `List ℕ` values:
  `set(xs)` is `xs.dedup`, intersection and difference are `List.filter` with
  membership tests, so every operation is executable by kernel reduction.
* The float weight `len(common_cores) / len(vm.pinned_cores)` of the source is
  represented exactly: the weight map stores the numerator `len(common_cores)`
  and the denominator `len(vm.pinned_cores)` is carried separately; the
  rational value of a weight is recovered by `ratWeight`.  Consequently
  `int(vm.memory * MB * numa_weight)` is modelled by exact integer arithmetic
  `vm.memory * MB * numerator / denominator` (truncating division), the
  infinite-precision reading of the source's float expression.
* Django query rows are modelled as read-only snapshot lists carried by `Pod`;
  grouped aggregate queries are replaced by explicit folds over those lists,
  mirroring the per-row accumulation the source performs on the query results.
* The per-object mutable counter `interface.allocated_vfs` is modelled as a
  map keyed by interface id (interface ids are unique in the database).
-/

def MB : ℕ := 1024 * 1024

/-- Pointwise update of a map `ℕ → α` at one key. -/
def updAt {α : Type} (f : ℕ → α) (k : ℕ) (v : α) : ℕ → α :=
  fun x => if x = k then v else f x

/-- Python `a & b` on sets-as-lists: the elements of `a` that are also in `b`. -/
def listInter (a b : List ℕ) : List ℕ := a.filter (fun x => b.contains x)

/-- Python `a - b` / `a.difference_update(b)` on sets-as-lists. -/
def listDiff (a b : List ℕ) : List ℕ := a.filter (fun x => !(b.contains x))

/-- Insert into a sorted list of core ids, keeping it sorted. -/
def insertSorted (x : ℕ) : List ℕ → List ℕ
  | [] => [x]
  | y :: ys => if x ≤ y then x :: y :: ys else y :: insertSorted x ys

/-- Python `sorted(...)` on a collection of core ids. -/
def sortedList (l : List ℕ) : List ℕ := l.foldr insertSorted []

/-- One hugepages configuration row of a NUMA node (`hugepages_set.first()`);
at most one per node in the current model. -/
structure Hugepages where
  page_size : ℕ
  total : ℕ
deriving DecidableEq

/-- Snapshot of one `NUMANode` row of the host. -/
structure NumaNode where
  index : ℕ
  cores : List ℕ
  memory : ℕ
  hugepages : Option Hugepages
deriving DecidableEq

/-- Snapshot of one host `Interface` row, with the `numa_index` annotation
(`numa_node__index`, absent when the interface has no NUMA node). -/
structure HostInterface where
  id : ℕ
  name : String
  numa_index : Option ℕ
  sriov_max_vf : ℕ
deriving DecidableEq

/-- `InterfaceAttachType` restricted to the distinction the engine makes. -/
inductive InterfaceAttachType where
  | sriov
  | other
deriving DecidableEq

/-- Snapshot of one `VirtualMachine` row (`memory` in MB). -/
structure VirtualMachine where
  id : ℕ
  system_id : Option String
  project : String
  pinned_cores : List ℕ
  unpinned_cores : ℕ
  memory : ℕ
  hugepages_backed : Bool
deriving DecidableEq

/-- Snapshot of one `VirtualMachineInterface` row that is attached to a host
interface (rows with a null `host_interface` are excluded by both passes of
the source, so the snapshot only carries attached rows). -/
structure VirtualMachineInterface where
  vm_id : ℕ
  host_interface_id : ℕ
  attachment_type : InterfaceAttachType
deriving DecidableEq

/-- Snapshot of one `VirtualMachineDisk` row backed by a pool of this pod. -/
structure VirtualMachineDisk where
  vm_id : ℕ
  size : ℕ
deriving DecidableEq

/-- The physical host bound to the pod: its NUMA nodes and interfaces. -/
structure Host where
  numanodes : List NumaNode
  interfaces : List HostInterface
deriving DecidableEq

/-- The pod together with the one-host snapshot the engine reads:
its VMs, their interface attachments, their disks, and the storage-pool
capacities (`pools` lists each pool's `storage` value). -/
structure Pod where
  host : Option Host
  tracked_project : String
  vms : List VirtualMachine
  vm_interfaces : List VirtualMachineInterface
  disks : List VirtualMachineDisk
  pools : List ℕ
deriving DecidableEq

/-- `NUMAPinningCoresResources` dataclass. -/
structure NUMAPinningCoresResources where
  allocated : List ℕ := []
  free : List ℕ := []
deriving DecidableEq

/-- `NUMAPinningGeneralMemoryResources` dataclass (`free` may go negative). -/
structure NUMAPinningGeneralMemoryResources where
  allocated : ℕ := 0
  free : ℤ := 0
deriving DecidableEq

/-- `NUMAPinningHugepagesResources` dataclass. -/
structure NUMAPinningHugepagesResources where
  page_size : ℕ
  allocated : ℕ := 0
  free : ℤ := 0
deriving DecidableEq

/-- `NUMAPinningMemoryResources` dataclass. -/
structure NUMAPinningMemoryResources where
  hugepages : List NUMAPinningHugepagesResources := []
  general : NUMAPinningGeneralMemoryResources := {}
deriving DecidableEq

/-- `NUMAPinningVirtualMachineNetworkResources` dataclass. -/
structure NUMAPinningVirtualMachineNetworkResources where
  host_nic_id : ℕ
  guest_nic_id : Option ℕ := none
deriving DecidableEq

/-- `NUMAPinningVirtualMachineResources` dataclass. -/
structure NUMAPinningVirtualMachineResources where
  system_id : Option String
  pinned_cores : List ℕ := []
  networks : List NUMAPinningVirtualMachineNetworkResources := []
deriving DecidableEq

/-- `NUMAPinningVirtualFunctionResources` dataclass. -/
structure NUMAPinningVirtualFunctionResources where
  free : ℤ := 0
  allocated : ℕ := 0
deriving DecidableEq

/-- `NUMAPinningHostInterfaceResources` dataclass. -/
structure NUMAPinningHostInterfaceResources where
  id : ℕ
  name : String
  virtual_functions : NUMAPinningVirtualFunctionResources := {}
deriving DecidableEq

/-- `NUMAPinningNodeResources` dataclass. -/
structure NUMAPinningNodeResources where
  node_id : ℕ
  memory : NUMAPinningMemoryResources := {}
  cores : NUMAPinningCoresResources := {}
  vms : List NUMAPinningVirtualMachineResources := []
  interfaces : List NUMAPinningHostInterfaceResources := []
deriving DecidableEq

/-- `VMHostResource` dataclass. -/
structure VMHostResource where
  allocated_tracked : ℕ := 0
  allocated_other : ℕ := 0
  free : ℤ := 0
deriving DecidableEq

/-- The `allocated` property of `VMHostResource`. -/
def VMHostResource.allocated (r : VMHostResource) : ℕ :=
  r.allocated_tracked + r.allocated_other

/-- `VMHostCount` dataclass. -/
structure VMHostCount where
  tracked : ℕ := 0
  other : ℕ := 0
deriving DecidableEq

/-- `VMHostMemoryResources` dataclass. -/
structure VMHostMemoryResources where
  hugepages : VMHostResource := {}
  general : VMHostResource := {}
deriving DecidableEq

/-- `VMHostNetworkInterface` dataclass. -/
structure VMHostNetworkInterface where
  id : ℕ
  name : String
  virtual_functions : VMHostResource := {}
deriving DecidableEq

/-- `VMHostVirtualMachineResources` dataclass. -/
structure VMHostVirtualMachineResources where
  id : ℕ
  system_id : Option String
  memory : ℕ
  hugepages_backed : Bool
  unpinned_cores : ℕ
  pinned_cores : List ℕ
deriving DecidableEq

/-- `VMHostResources` dataclass: the whole report. -/
structure VMHostResources where
  cores : VMHostResource := {}
  memory : VMHostMemoryResources := {}
  storage : VMHostResource := {}
  vm_count : VMHostCount := {}
  interfaces : List VMHostNetworkInterface := []
  vms : List VMHostVirtualMachineResources := []
  numa : List NUMAPinningNodeResources := []
deriving DecidableEq

/-- The rational value of a weight entry: numerator `num` (the number of the
VM's pinned cores found in the node) over denominator `den`
(`len(vm.pinned_cores)`); the source stores this quotient as a float. -/
def ratWeight (den num : ℕ) : ℚ := (num : ℚ) / (den : ℚ)

/-- The node scan of `_get_vm_numanode_weights_and_cores`: walk the NUMA nodes
in order, take the cores the VM still owns that lie in the node, record the
weight numerator and the common cores, remove them from the remaining set, and
stop as soon as no cores remain.  Returns (weight entries, cores entries). -/
def weightsAux : List NumaNode → List ℕ → List (ℕ × ℕ) × List (ℕ × List ℕ)
  | [], _ => ([], [])
  | n :: rest, vm_cores =>
    let common_cores := listInter vm_cores n.cores
    if common_cores.isEmpty then
      if vm_cores.isEmpty then ([], [])
      else weightsAux rest vm_cores
    else
      let vm_cores2 := listDiff vm_cores common_cores
      let r :=
        if vm_cores2.isEmpty then (([], []) : List (ℕ × ℕ) × List (ℕ × List ℕ))
        else weightsAux rest vm_cores2
      ((n.index, common_cores.length) :: r.1, (n.index, common_cores) :: r.2)

/-- `_get_vm_numanode_weights_and_cores(vm, numanodes)`: maps NUMA indexes to
weights (numerators over `len(vm.pinned_cores)`) and to the VM cores located
in the node.  `set(vm.pinned_cores)` is `vm.pinned_cores.dedup`. -/
def get_vm_numanode_weights_and_cores (vm : VirtualMachine) (numanodes : List NumaNode) :
    List (ℕ × ℕ) × List (ℕ × List ℕ) :=
  weightsAux numanodes vm.pinned_cores.dedup

/-- `used_numanode_cores[numa_idx]` with the `defaultdict(set)` default. -/
def lookupCores (cs : List (ℕ × List ℕ)) (idx : ℕ) : List ℕ :=
  ((cs.find? (fun p => p.1 == idx)).map Prod.snd).getD []

/-- The mutable per-node accumulators threaded through
`_update_detailed_resource_counters`, all keyed by NUMA index except
`allocatedVfs`, which is keyed by host-interface id. -/
structure NumaState where
  availableCores : ℕ → List ℕ
  allocatedMemory : ℕ → ℕ
  allocatedHugepages : ℕ → ℕ
  vmsResources : ℕ → List NUMAPinningVirtualMachineResources
  allocatedVfs : ℕ → ℕ

/-- `int(vm.memory * MB * numa_weight)` computed exactly for the weight
`num / len(vm.pinned_cores)` (truncating division, as `int()` truncates). -/
def vmNodeMemory (vm : VirtualMachine) (num : ℕ) : ℕ :=
  vm.memory * MB * num / vm.pinned_cores.length

/-- `ceil(vm_node_memory / page_size) * page_size`: round up to the nearest
multiple of the page size (for a positive page size). -/
def roundUpToPage (m page_size : ℕ) : ℕ :=
  (m + page_size - 1) / page_size * page_size

/-- Body of the first loop of `_update_numanode_resources_usage`: credit one
weight entry's share of the VM memory to the node's hugepages bucket (rounded
up, and only when the node has a hugepages configuration) or to its general
memory bucket, then remove the VM's cores in the node from the available set. -/
def applyNumaWeight (vm : VirtualMachine) (numanode_hugepages : ℕ → Option Hugepages)
    (used_numanode_cores : List (ℕ × List ℕ)) (st : NumaState) (iw : ℕ × ℕ) : NumaState :=
  let numa_idx := iw.1
  let vm_node_memory := vmNodeMemory vm iw.2
  let st1 :=
    if vm.hugepages_backed then
      match numanode_hugepages numa_idx with
      | some hugepages =>
        let rounded := roundUpToPage vm_node_memory hugepages.page_size
        { st with allocatedHugepages :=
                    updAt st.allocatedHugepages numa_idx
                      (st.allocatedHugepages numa_idx + rounded) }
      | none => st
    else
      { st with allocatedMemory :=
                  updAt st.allocatedMemory numa_idx
                    (st.allocatedMemory numa_idx + vm_node_memory) }
  let used := lookupCores used_numanode_cores numa_idx
  if used.isEmpty then st1
  else
    { st1 with availableCores :=
                 updAt st1.availableCores numa_idx
                   (listDiff (st1.availableCores numa_idx) used) }

/-- The `numa_index` annotation of a VM interface: the NUMA index of the host
interface it is attached to (`host_interface__numa_node__index`). -/
def vmiNumaIndex (host_interfaces : List HostInterface) (vi : VirtualMachineInterface) :
    Option ℕ :=
  (host_interfaces.find? (fun hi => hi.id == vi.host_interface_id)).bind
    (fun hi => hi.numa_index)

/-- `numanode_interfaces[idx]`: the host interfaces attached to NUMA node `idx`. -/
def interfacesAtNode (host_interfaces : List HostInterface) (idx : ℕ) : List HostInterface :=
  host_interfaces.filter (fun hi => hi.numa_index == some idx)

/-- Decision of `attachment_type == InterfaceAttachType.SRIOV`. -/
def isSriovAttachment (vi : VirtualMachineInterface) : Bool :=
  match vi.attachment_type with
  | InterfaceAttachType.sriov => true
  | InterfaceAttachType.other => false

/-- `host_interface.allocated_vfs += 1` for each host interface of the node
whose id matches the VM interface's host interface. -/
def vfIncrStep (vi : VirtualMachineInterface) (s : NumaState) (hi : HostInterface) : NumaState :=
  if hi.id = vi.host_interface_id then
    { s with allocatedVfs := updAt s.allocatedVfs hi.id (s.allocatedVfs hi.id + 1) }
  else s

/-- The SRIOV branch of the second loop of `_update_numanode_resources_usage`
for one VM interface of the current node. -/
def vfIncrVmi (host_interfaces : List HostInterface) (numa_idx : ℕ)
    (s : NumaState) (vi : VirtualMachineInterface) : NumaState :=
  if isSriovAttachment vi then
    (interfacesAtNode host_interfaces numa_idx).foldl (vfIncrStep vi) s
  else s

/-- Body of the second loop of `_update_numanode_resources_usage` for one NUMA
node: count SRIOV virtual functions and, when the VM has pinned cores or a
network attachment in the node, append its per-node placement record. -/
def applyNumaNodeRecord (vm : VirtualMachine) (vm_ifaces : List VirtualMachineInterface)
    (host_interfaces : List HostInterface) (used_numanode_cores : List (ℕ × List ℕ))
    (st : NumaState) (node : NumaNode) : NumaState :=
  let numa_idx := node.index
  let pinned_cores := sortedList (lookupCores used_numanode_cores numa_idx)
  let numa_vmis := vm_ifaces.filter (fun vi => vmiNumaIndex host_interfaces vi == some numa_idx)
  let st1 := numa_vmis.foldl (vfIncrVmi host_interfaces numa_idx) st
  if pinned_cores.isEmpty && numa_vmis.isEmpty then st1
  else
    { st1 with vmsResources :=
                 updAt st1.vmsResources numa_idx
                   (st1.vmsResources numa_idx ++
                     [{ system_id := vm.system_id,
                        pinned_cores := pinned_cores,
                        networks := numa_vmis.map
                          (fun vi => { host_nic_id := vi.host_interface_id }) }]) }

/-- `_update_numanode_resources_usage(vm, ...)`: resolve the VM's weights and
cores, then run both accumulation loops. -/
def update_numanode_resources_usage (vm : VirtualMachine)
    (vm_ifaces : List VirtualMachineInterface) (numanodes : List NumaNode)
    (numanode_hugepages : ℕ → Option Hugepages)
    (host_interfaces : List HostInterface) (st : NumaState) : NumaState :=
  let wc := get_vm_numanode_weights_and_cores vm numanodes
  let st1 := wc.1.foldl (applyNumaWeight vm numanode_hugepages wc.2) st
  numanodes.foldl (applyNumaNodeRecord vm vm_ifaces host_interfaces wc.2) st1

/-- `_get_numa_pinning_resources(...)`: assemble one node's detail record from
the accumulated state. -/
def get_numa_pinning_resources (numa_node : NumaNode) (available : List ℕ)
    (allocated_memory : ℕ) (hugepages : Option Hugepages) (allocated_hugepages : ℕ)
    (vm_resources : List NUMAPinningVirtualMachineResources)
    (host_interfaces : List HostInterface) (allocated_vfs : ℕ → ℕ) :
    NUMAPinningNodeResources :=
  let general_free : ℤ := (numa_node.memory * MB : ℕ) - (allocated_memory : ℤ)
  let hp_list : List NUMAPinningHugepagesResources :=
    match hugepages with
    | some hp =>
      [{ page_size := hp.page_size,
         allocated := allocated_hugepages,
         free := (hp.total : ℤ) - (allocated_hugepages : ℤ) }]
    | none => []
  let general_free2 : ℤ :=
    match hugepages with
    | some hp => general_free - (hp.total : ℤ)
    | none => general_free
  { node_id := numa_node.index,
    memory := { hugepages := hp_list,
                general := { allocated := allocated_memory, free := general_free2 } },
    cores := { free := sortedList available,
               allocated := sortedList (listDiff numa_node.cores.dedup available) },
    vms := vm_resources,
    interfaces := (interfacesAtNode host_interfaces numa_node.index).map
      (fun hi =>
        { id := hi.id,
          name := hi.name,
          virtual_functions :=
            { free := (hi.sriov_max_vf : ℤ) - (allocated_vfs hi.id : ℤ),
              allocated := allocated_vfs hi.id } }) }

/-- Ascending-index insertion for ordering NUMA nodes. -/
def insertNodeByIndex (n : NumaNode) : List NumaNode → List NumaNode
  | [] => [n]
  | m :: ms => if n.index ≤ m.index then n :: m :: ms else m :: insertNodeByIndex n ms

/-- `order_by("index")` on the host's NUMA nodes. -/
def sortNodesByIndex (l : List NumaNode) : List NumaNode := l.foldr insertNodeByIndex []

/-- `numanode_hugepages[idx]`: the hugepages configuration of the node with
the given index (first node found, `None` when unconfigured). -/
def nodeHugepages (numanodes : List NumaNode) (idx : ℕ) : Option Hugepages :=
  (numanodes.find? (fun n => n.index == idx)).bind (fun n => n.hugepages)

/-- The accumulator state before any VM is processed:
`available_numanode_cores[idx] = set(node.cores)`, every counter zero,
every per-node VM list empty. -/
def initialNumaState (numanodes : List NumaNode) : NumaState :=
  { availableCores := fun idx =>
      ((numanodes.find? (fun n => n.index == idx)).map (fun n => n.cores.dedup)).getD [],
    allocatedMemory := fun _ => 0,
    allocatedHugepages := fun _ => 0,
    vmsResources := fun _ => [],
    allocatedVfs := fun _ => 0 }

/-- Whether the VM belongs to the pod's tracked project. -/
def isTrackedProject (pod : Pod) (vm : VirtualMachine) : Bool :=
  vm.project == pod.tracked_project

/-- The VMs of the tracked project, the only ones the detailed pass consumes
(`filter(bmc=pod, project=pod.tracked_project)`). -/
def trackedVms (pod : Pod) : List VirtualMachine := pod.vms.filter (isTrackedProject pod)

/-- Ownership of a row reached through a `vm` foreign key
(`Q(vm__project=pod.tracked_project)`). -/
def vmTracked (pod : Pod) (vm_id : ℕ) : Bool :=
  match pod.vms.find? (fun vm => vm.id == vm_id) with
  | some vm => vm.project == pod.tracked_project
  | none => false

/-- The `VMHostVirtualMachineResources` record appended for one tracked VM. -/
def vmResourceRecord (vm : VirtualMachine) : VMHostVirtualMachineResources :=
  { id := vm.id,
    system_id := vm.system_id,
    memory := vm.memory * MB,
    hugepages_backed := vm.hugepages_backed,
    unpinned_cores := vm.unpinned_cores,
    pinned_cores := vm.pinned_cores }

/-- The main loop of `_update_detailed_resource_counters`: append each tracked
VM's record to `resources.vms` and fold its per-node usage into the state. -/
def processVms (numanodes : List NumaNode) (numanode_hugepages : ℕ → Option Hugepages)
    (host_interfaces : List HostInterface) (vmis : List VirtualMachineInterface) :
    List VirtualMachine → List VMHostVirtualMachineResources × NumaState →
      List VMHostVirtualMachineResources × NumaState
  | [], acc => acc
  | vm :: rest, acc =>
    processVms numanodes numanode_hugepages host_interfaces vmis rest
      (acc.1 ++ [vmResourceRecord vm],
       update_numanode_resources_usage vm (vmis.filter (fun vi => vi.vm_id == vm.id))
         numanodes numanode_hugepages host_interfaces acc.2)

/-- `_update_detailed_resource_counters(pod, resources)`: the optional NUMA
pass.  Only VMs of the tracked project are fetched, and only their interface
attachments (`vm__in=vms`). -/
def update_detailed_resource_counters (pod : Pod) (host : Host)
    (resources : VMHostResources) : VMHostResources :=
  let numanodes := sortNodesByIndex host.numanodes
  let hp := nodeHugepages numanodes
  let vms := trackedVms pod
  let vm_interfaces := pod.vm_interfaces.filter (fun vi => vms.any (fun vm => vm.id == vi.vm_id))
  let r := processVms numanodes hp host.interfaces vm_interfaces vms ([], initialNumaState numanodes)
  { resources with
    vms := r.1,
    numa := numanodes.map (fun n =>
      get_numa_pinning_resources n (r.2.availableCores n.index) (r.2.allocatedMemory n.index)
        (hp n.index) (r.2.allocatedHugepages n.index) (r.2.vmsResources n.index)
        host.interfaces r.2.allocatedVfs) }

/-- `unpinned_cores + ArrayLength(pinned_cores)` for one VM. -/
def vmCoresCount (vm : VirtualMachine) : ℕ := vm.unpinned_cores + vm.pinned_cores.length

/-- Contribution of one VM to the global counters (the source's grouped query
`values("hugepages_backed").annotate(tracked=..., vms=Count, cores=Sum,
memory=Sum)` accumulates exactly these per-VM amounts group by group). -/
def applyVmGlobal (tracked_project : String) (resources : VMHostResources)
    (vm : VirtualMachine) : VMHostResources :=
  let mem := vm.memory * MB
  if vm.project == tracked_project then
    { resources with
      cores := { resources.cores with
                 allocated_tracked := resources.cores.allocated_tracked + vmCoresCount vm },
      vm_count := { resources.vm_count with tracked := resources.vm_count.tracked + 1 },
      memory :=
        if vm.hugepages_backed then
          { resources.memory with
            hugepages := { resources.memory.hugepages with
                           allocated_tracked := resources.memory.hugepages.allocated_tracked + mem } }
        else
          { resources.memory with
            general := { resources.memory.general with
                         allocated_tracked := resources.memory.general.allocated_tracked + mem } } }
  else
    { resources with
      cores := { resources.cores with
                 allocated_other := resources.cores.allocated_other + vmCoresCount vm },
      vm_count := { resources.vm_count with other := resources.vm_count.other + 1 },
      memory :=
        if vm.hugepages_backed then
          { resources.memory with
            hugepages := { resources.memory.hugepages with
                           allocated_other := resources.memory.hugepages.allocated_other + mem } }
        else
          { resources.memory with
            general := { resources.memory.general with
                         allocated_other := resources.memory.general.allocated_other + mem } } }

/-- The rows of `virtualmachineinterface` joined to one host interface in the
source's global interfaces query. -/
def interfaceVmRows (pod : Pod) (iface : HostInterface) : List VirtualMachineInterface :=
  pod.vm_interfaces.filter (fun vi => vi.host_interface_id == iface.id)

/-- The grouped rows `(tracked, sriov_attached, allocated)` the global
interfaces query yields for one host interface: one group per present
combination; an interface with no attachments yields a single outer-join row
whose null annotations read as `(false, false, 0)`. -/
def interfaceGroups (pod : Pod) (iface : HostInterface) : List (Bool × Bool × ℕ) :=
  let rows := interfaceVmRows pod iface
  if rows.isEmpty then [(false, false, 0)]
  else
    [(true, true), (true, false), (false, true), (false, false)].filterMap (fun g =>
      let c := (rows.filter (fun vi =>
        (vmTracked pod vi.vm_id == g.1) && (isSriovAttachment vi == g.2))).length
      if c = 0 then none else some (g.1, g.2, c))

/-- The per-row loop of the source's global interface accounting: start from
`VMHostResource(free=sriov_max_vf)`, skip non-SRIOV groups, and add each SRIOV
group's count to the owner's allocated counter while decreasing `free`. -/
def buildGlobalInterface (pod : Pod) (iface : HostInterface) : VMHostNetworkInterface :=
  (interfaceGroups pod iface).foldl (fun acc g =>
      if !g.2.1 then acc
      else
        let vfs := acc.virtual_functions
        let vfs2 :=
          if g.1 then
            { vfs with allocated_tracked := vfs.allocated_tracked + g.2.2,
                       free := vfs.free - (g.2.2 : ℤ) }
          else
            { vfs with allocated_other := vfs.allocated_other + g.2.2,
                       free := vfs.free - (g.2.2 : ℤ) }
        { acc with virtual_functions := vfs2 })
    { id := iface.id, name := iface.name,
      virtual_functions := { free := (iface.sriov_max_vf : ℤ) } }

/-- Contribution of one disk row to the storage counters, grouped by
ownership of the owning VM (`Q(vm__project=pod.tracked_project)`). -/
def applyDiskGlobal (pod : Pod) (r : VMHostResources) (d : VirtualMachineDisk) :
    VMHostResources :=
  if vmTracked pod d.vm_id then
    { r with storage := { r.storage with
                          allocated_tracked := r.storage.allocated_tracked + d.size } }
  else
    { r with storage := { r.storage with
                          allocated_other := r.storage.allocated_other + d.size } }

/-- `_update_global_resource_counters(pod, resources)`. -/
def update_global_resource_counters (pod : Pod) (host : Host)
    (resources : VMHostResources) : VMHostResources :=
  let total_cores := (host.numanodes.map (fun n => n.cores.length)).sum
  let total_memory := (host.numanodes.map (fun n => n.memory)).sum * MB
  let total_hugepages := (host.numanodes.map (fun n => ((n.hugepages.map Hugepages.total).getD 0))).sum
  let r1 := pod.disks.foldl (applyDiskGlobal pod) resources
  let total_storage := pod.pools.sum
  let r2 := { r1 with storage := { r1.storage with
                                   free := (total_storage : ℤ) - (r1.storage.allocated : ℤ) } }
  let r3 := pod.vms.foldl (applyVmGlobal pod.tracked_project) r2
  let r4 := { r3 with
              cores := { r3.cores with free := (total_cores : ℤ) - (r3.cores.allocated : ℤ) },
              memory := { r3.memory with
                          general := { r3.memory.general with
                                       free := (total_memory : ℤ) - (r3.memory.general.allocated : ℤ) },
                          hugepages := { r3.memory.hugepages with
                                         free := (total_hugepages : ℤ) - (r3.memory.hugepages.allocated : ℤ) } } }
  { r4 with interfaces := host.interfaces.map (buildGlobalInterface pod) }

/-- `get_vm_host_resources(pod, detailed)`: the engine's entry point. -/
def get_vm_host_resources (pod : Pod) (detailed : Bool) : VMHostResources :=
  let resources : VMHostResources := {}
  match pod.host with
  | none => resources
  | some host =>
    let resources2 := update_global_resource_counters pod host resources
    if detailed then update_detailed_resource_counters pod host resources2 else resources2

/-- A `NumaState` with every accumulator empty, for concrete evaluations. -/
def emptyNumaState : NumaState :=
  ⟨fun _ => [], fun _ => 0, fun _ => 0, fun _ => [], fun _ => 0⟩

/-- The SRIOV VM-interface rows attached to one host interface id. -/
def sriovVmisTo (pod : Pod) (iface_id : ℕ) : List VirtualMachineInterface :=
  pod.vm_interfaces.filter (fun vi => vi.host_interface_id == iface_id && isSriovAttachment vi)

/-- How many SRIOV rows attached to the interface come from tracked-project VMs. -/
def trackedSriovCount (pod : Pod) (iface_id : ℕ) : ℕ :=
  ((sriovVmisTo pod iface_id).filter (fun vi => vmTracked pod vi.vm_id)).length

/-- How many SRIOV rows attached to the interface come from other-project VMs. -/
def otherSriovCount (pod : Pod) (iface_id : ℕ) : ℕ :=
  ((sriovVmisTo pod iface_id).filter (fun vi => !vmTracked pod vi.vm_id)).length

/-- The number of SRIOV rows of a VM-interface list attached to one
interface id. -/
def sriovCountTo (vmis : List VirtualMachineInterface) (iface_id : ℕ) : ℕ :=
  (vmis.filter (fun vi => vi.host_interface_id == iface_id && isSriovAttachment vi)).length

/-- Sum over all NUMA node entries of the report of the allocated VF counters
recorded for the given interface id. -/
def numaVfAllocatedSum (resources : VMHostResources) (iface_id : ℕ) : ℕ :=
  (resources.numa.map (fun nr =>
    ((nr.interfaces.filter (fun e => e.id == iface_id)).map
      (fun e => e.virtual_functions.allocated)).sum)).sum

/-- Sample 2-node topology (the specification's concrete layout). -/
def nodesSample : List NumaNode :=
  [⟨0, [0, 1, 2, 3], 4096, none⟩, ⟨1, [4, 5, 6, 7], 4096, none⟩]

/-- Sample VM pinned across both nodes (the specification's concrete VM). -/
def vmSample : VirtualMachine := ⟨1, some "abc", "p", [1, 2, 5], 0, 300, false⟩

/-- Sample unpinned VM. -/
def vmSampleUnpinned : VirtualMachine := ⟨2, none, "q", [], 2, 100, true⟩

/-- Sample VM of a project other than the tracked one. -/
def vmSampleOther : VirtualMachine := ⟨9, none, "zzz", [3], 0, 50, false⟩

/-- Sample hugepages-backed VM pinned across two nodes. -/
def vmSampleHuge : VirtualMachine := ⟨1, none, "p", [0, 1, 2], 0, 1, true⟩

/-- Sample hugepages map with a configuration everywhere. -/
def hpmSampleSome : ℕ → Option Hugepages := fun _ => some ⟨69905, 1000000⟩

/-- Sample hugepages map with no configuration anywhere. -/
def hpmSampleNone : ℕ → Option Hugepages := fun _ => none

/-- Sample pod for C1: hugepages-backed VM fully pinned in a node that has no
hugepage configuration. -/
def podSampleC1 : Pod :=
  ⟨some ⟨[⟨0, [0], 4096, none⟩], []⟩, "p",
   [⟨1, none, "p", [0], 0, 1, true⟩], [], [], []⟩

/-- Sample pod for C2: an unpinned VM with a network interface attached to
node 0. -/
def podSampleC2 : Pod :=
  ⟨some ⟨nodesSample, [⟨7, "eth0", some 0, 8⟩]⟩, "p",
   [⟨1, none, "p", [], 2, 300, false⟩], [⟨1, 7, InterfaceAttachType.other⟩], [], []⟩

/-- Sample pod for C3: one VM of a non-tracked project with a pinned core. -/
def podSampleC3 : Pod :=
  ⟨some ⟨[⟨0, [0, 1], 4096, none⟩], []⟩, "p",
   [⟨1, none, "other-project", [0], 0, 100, false⟩], [], [], []⟩

/-- Sample pod for C4: one SRIOV attachment from an other-project VM. -/
def podSampleC4 : Pod :=
  ⟨some ⟨[⟨0, [0, 1], 4096, none⟩], [⟨1, "eth0", some 0, 8⟩]⟩, "p",
   [⟨1, none, "q", [0], 0, 100, false⟩], [⟨1, 1, InterfaceAttachType.sriov⟩], [], []⟩

/-- Sample pod realizing the specification's SR-IOV scenario:
`sriov_max_vf=8`, three tracked SRIOV attachments. -/
def podSampleC4w : Pod :=
  ⟨some ⟨[⟨0, [0, 1, 2, 3], 4096, none⟩], [⟨1, "eth0", some 0, 8⟩]⟩, "p",
   [⟨1, none, "p", [0], 0, 10, false⟩, ⟨2, none, "p", [1], 0, 10, false⟩,
    ⟨3, none, "p", [2], 0, 10, false⟩],
   [⟨1, 1, InterfaceAttachType.sriov⟩, ⟨2, 1, InterfaceAttachType.sriov⟩,
    ⟨3, 1, InterfaceAttachType.sriov⟩], [], []⟩

/-- Sample pod for C5: weight 1/3 for a node whose page size is 69905. -/
def podSampleC5 : Pod :=
  ⟨some ⟨[⟨0, [0], 4096, some ⟨69905, 1000000⟩⟩, ⟨1, [1, 2], 4096, none⟩], []⟩, "p",
   [vmSampleHuge], [], [], []⟩

/-- Sample pod with no bound physical host. -/
def podSampleNoHost : Pod := ⟨none, "p", [vmSample], [], [⟨1, 100⟩], [500]⟩

/-- Sample pod exercising the whole pipeline. -/
def podSampleFull : Pod :=
  ⟨some ⟨nodesSample, [⟨7, "eth0", some 0, 8⟩, ⟨8, "eth1", some 1, 4⟩]⟩, "p",
   [vmSample, ⟨2, none, "q", [], 2, 100, true⟩],
   [⟨1, 7, InterfaceAttachType.sriov⟩, ⟨2, 8, InterfaceAttachType.sriov⟩],
   [⟨1, 1000⟩], [5000]⟩


theorem length_filter_split (l : List ℕ) (q : ℕ → Bool) :
    (l.filter q).length + (l.filter (fun x => !q x)).length = l.length := by
  induction l with
  | nil => rfl
  | cons a t ih =>
    cases h : q a <;> simp [List.filter, h] <;> omega

theorem listInter_eq_filter (a b : List ℕ) : listInter a b = a.filter (fun x => b.contains x) := rfl

theorem listDiff_inter (vc b : List ℕ) :
    listDiff vc (listInter vc b) = vc.filter (fun x => !b.contains x) := by
  apply List.filter_congr
  intro x hx
  simp only [listInter, List.contains, List.elem_eq_mem, List.mem_filter, decide_eq_true_eq]
  by_cases hb : x ∈ b <;> simp [hx, hb]

theorem listInter_length_add_diff (vc b : List ℕ) :
    (listInter vc b).length + (listDiff vc (listInter vc b)).length = vc.length := by
  rw [listDiff_inter, listInter_eq_filter]
  exact length_filter_split vc _

theorem weightsAux_nil_cores (nodes : List NumaNode) : weightsAux nodes [] = ([], []) := by
  cases nodes with
  | nil => rfl
  | cons n rest => simp [weightsAux, listInter]

theorem weightsAux_num_eq_len (nodes : List NumaNode) :
    ∀ vc, ((weightsAux nodes vc).1.map Prod.snd) =
      ((weightsAux nodes vc).2.map (fun p => p.2.length)) := by
  induction nodes with
  | nil => intro vc; rfl
  | cons n rest ih =>
    intro vc
    simp only [weightsAux]
    by_cases h1 : (listInter vc n.cores).isEmpty
    · by_cases h2 : vc.isEmpty <;> simp [h1, h2, ih]
    · by_cases h2 : (listDiff vc (listInter vc n.cores)).isEmpty <;> simp [h1, h2, ih]

theorem weightsAux_cores_sum (nodes : List NumaNode) :
    ∀ vc, (∀ c ∈ vc, ∃ n ∈ nodes, c ∈ n.cores) →
      ((weightsAux nodes vc).2.map (fun p => p.2.length)).sum = vc.length := by
  induction nodes with
  | nil =>
    intro vc hcov
    have : vc = [] := by
      cases vc with
      | nil => rfl
      | cons c t =>
        rcases hcov c (by simp) with ⟨n, hn, _⟩
        exact absurd hn (by simp)
    subst this; rfl
  | cons n rest ih =>
    intro vc hcov
    by_cases h0 : vc = []
    · subst h0; rw [weightsAux_nil_cores]; rfl
    have h2 : vc.isEmpty = false := by
      cases vc with
      | nil => exact absurd rfl h0
      | cons c t => rfl
    simp only [weightsAux]
    by_cases h1 : (listInter vc n.cores).isEmpty
    · have hnone : ∀ c ∈ vc, c ∉ n.cores := by
        intro c hc hcn
        have : c ∈ listInter vc n.cores := by
          simp [listInter, List.contains, List.elem_eq_mem, hc, hcn]
        rw [List.isEmpty_iff] at h1
        simp [h1] at this
      · have hcov2 : ∀ c ∈ vc, ∃ m ∈ rest, c ∈ m.cores := by
          intro c hc
          rcases hcov c hc with ⟨m, hm, hcm⟩
          rcases List.mem_cons.mp hm with rfl | hm2
          · exact absurd hcm (hnone c hc)
          · exact ⟨m, hm2, hcm⟩
        simp [h1, h2, ih vc hcov2]
    · by_cases h2 : (listDiff vc (listInter vc n.cores)).isEmpty
      · have hlen := listInter_length_add_diff vc n.cores
        rw [List.isEmpty_iff] at h2
        simp [h1, h2, List.isEmpty_iff]
        rw [h2] at hlen
        simpa using hlen
      · have hlen := listInter_length_add_diff vc n.cores
        have hcov2 : ∀ c ∈ listDiff vc (listInter vc n.cores), ∃ m ∈ rest, c ∈ m.cores := by
          intro c hc
          rw [listDiff_inter] at hc
          rw [List.mem_filter] at hc
          rcases hc with ⟨hcv, hcn⟩
          rcases hcov c hcv with ⟨m, hm, hcm⟩
          rcases List.mem_cons.mp hm with rfl | hm2
          · simp [List.contains, List.elem_eq_mem, hcm] at hcn
          · exact ⟨m, hm2, hcm⟩
        simp [h1, h2]
        rw [ih _ hcov2]
        omega

theorem weightsAux_mem_pos (nodes : List NumaNode) :
    ∀ vc idx num, (idx, num) ∈ (weightsAux nodes vc).1 → 0 < num ∧ vc ≠ [] := by
  induction nodes with
  | nil => intro vc idx num h; exact absurd h (by simp [weightsAux])
  | cons n rest ih =>
    intro vc idx num h
    simp only [weightsAux] at h
    by_cases h1 : (listInter vc n.cores).isEmpty
    · by_cases h2 : vc.isEmpty
      · simp [h1, h2] at h
      · rcases ih vc idx num (by simpa [h1, h2] using h) with ⟨hpos, hne⟩
        exact ⟨hpos, hne⟩
    · by_cases h2 : (listDiff vc (listInter vc n.cores)).isEmpty
      · simp [h1, h2] at h
        rcases h with ⟨_, hnum⟩
        constructor
        · rw [hnum]
          have : listInter vc n.cores ≠ [] := by
            intro hc; rw [hc] at h1; simp at h1
          simpa [List.length_pos] using this
        · intro hvc; rw [hvc] at h1; simp [listInter] at h1
      · simp [h1, h2] at h
        rcases h with ⟨_, hnum⟩ | hmem
        · constructor
          · rw [hnum]
            have : listInter vc n.cores ≠ [] := by
              intro hc; rw [hc] at h1; simp at h1
            simpa [List.length_pos] using this
          · intro hvc; rw [hvc] at h1; simp [listInter] at h1
        · rcases ih _ idx num hmem with ⟨hpos, _⟩
          refine ⟨hpos, ?_⟩
          intro hvc; rw [hvc] at h1; simp [listInter] at h1

theorem map_ratWeight_sum (den : ℕ) (l : List (ℕ × ℕ)) :
    (l.map (fun p => ratWeight den p.2)).sum = (((l.map Prod.snd).sum : ℕ) : ℚ) / den := by
  induction l with
  | nil => simp
  | cons a t ih =>
    rw [List.map_cons, List.sum_cons, ih, List.map_cons, List.sum_cons, ratWeight]
    push_cast
    rw [div_add_div_same]

theorem roundUpToPage_dvd (m p : ℕ) : p ∣ roundUpToPage m p := by
  unfold roundUpToPage
  exact dvd_mul_left p _

theorem le_roundUpToPage (m p : ℕ) (hp : 0 < p) : m ≤ roundUpToPage m p := by
  unfold roundUpToPage
  have hdm := Nat.div_add_mod (m + p - 1) p
  have hmod : (m + p - 1) % p < p := Nat.mod_lt _ hp
  rw [Nat.mul_comm] at hdm
  generalize hq : (m + p - 1) / p * p = q at hdm ⊢
  omega

theorem natDiv_ratio_bounds (a b : ℕ) (hb : 0 < b) :
    (a : ℚ) / b - 1 < ((a / b : ℕ) : ℚ) ∧ ((a / b : ℕ) : ℚ) ≤ (a : ℚ) / b := by
  have hdm := Nat.div_add_mod a b
  have hmod : a % b < b := Nat.mod_lt a hb
  have hlt : a < (a / b + 1) * b := by
    rw [Nat.add_mul, Nat.one_mul, Nat.mul_comm]
    generalize hq : b * (a / b) = q at hdm ⊢
    omega
  have hle : a / b * b ≤ a := Nat.div_mul_le_self a b
  have hbq : (0 : ℚ) < (b : ℚ) := by exact_mod_cast hb
  constructor
  · rw [sub_lt_iff_lt_add, div_lt_iff₀ hbq]
    calc (a : ℚ) < (((a / b + 1) * b : ℕ) : ℚ) := by exact_mod_cast hlt
    _ = (((a / b : ℕ) : ℚ) + 1) * b := by push_cast; ring
  · rw [le_div_iff₀ hbq]
    calc ((a / b : ℕ) : ℚ) * b = ((a / b * b : ℕ) : ℚ) := by push_cast; ring
    _ ≤ (a : ℚ) := by exact_mod_cast hle

theorem foldl_preserve {σ α β : Type} (f : σ → α → σ) (g : σ → β)
    (h : ∀ s a, g (f s a) = g s) : ∀ (l : List α) (s : σ), g (l.foldl f s) = g s := by
  intro l
  induction l with
  | nil => intro s; rfl
  | cons a t ih => intro s; rw [List.foldl_cons, ih, h]

theorem vfIncrStep_components (vi : VirtualMachineInterface) (s : NumaState)
    (hi : HostInterface) :
    (vfIncrStep vi s hi).allocatedMemory = s.allocatedMemory ∧
    (vfIncrStep vi s hi).allocatedHugepages = s.allocatedHugepages ∧
    (vfIncrStep vi s hi).availableCores = s.availableCores ∧
    (vfIncrStep vi s hi).vmsResources = s.vmsResources := by
  unfold vfIncrStep
  split <;> exact ⟨rfl, rfl, rfl, rfl⟩

theorem vfIncrVmi_components (his : List HostInterface) (m : ℕ) (s : NumaState)
    (vi : VirtualMachineInterface) :
    (vfIncrVmi his m s vi).allocatedMemory = s.allocatedMemory ∧
    (vfIncrVmi his m s vi).allocatedHugepages = s.allocatedHugepages ∧
    (vfIncrVmi his m s vi).availableCores = s.availableCores ∧
    (vfIncrVmi his m s vi).vmsResources = s.vmsResources := by
  unfold vfIncrVmi
  split
  · refine ⟨?_, ?_, ?_, ?_⟩ <;>
      exact foldl_preserve _ _ (fun s hi => by unfold vfIncrStep; split <;> rfl) _ s
  · exact ⟨rfl, rfl, rfl, rfl⟩

theorem applyNumaNodeRecord_memory (vm : VirtualMachine)
    (vmis : List VirtualMachineInterface) (his : List HostInterface)
    (cs : List (ℕ × List ℕ)) (s : NumaState) (node : NumaNode) :
    (applyNumaNodeRecord vm vmis his cs s node).allocatedMemory = s.allocatedMemory ∧
    (applyNumaNodeRecord vm vmis his cs s node).allocatedHugepages = s.allocatedHugepages ∧
    (applyNumaNodeRecord vm vmis his cs s node).availableCores = s.availableCores := by
  have h1 := foldl_preserve (vfIncrVmi his node.index)
    (fun s => (s.allocatedMemory, s.allocatedHugepages, s.availableCores))
    (fun s vi => by
      rcases vfIncrVmi_components his node.index s vi with ⟨a, b, c, _⟩
      simp [a, b, c])
    (vmis.filter (fun vi => vmiNumaIndex his vi == some node.index)) s
  simp only [Prod.mk.injEq] at h1
  simp only [applyNumaNodeRecord]
  split <;> simp [h1.1, h1.2.1, h1.2.2]

theorem secondLoop_memory (vm : VirtualMachine) (vmis : List VirtualMachineInterface)
    (his : List HostInterface) (cs : List (ℕ × List ℕ)) (nodes : List NumaNode)
    (s : NumaState) :
    ((nodes.foldl (applyNumaNodeRecord vm vmis his cs) s).allocatedMemory
      = s.allocatedMemory) ∧
    ((nodes.foldl (applyNumaNodeRecord vm vmis his cs) s).allocatedHugepages
      = s.allocatedHugepages) := by
  have h := foldl_preserve (applyNumaNodeRecord vm vmis his cs)
    (fun s => (s.allocatedMemory, s.allocatedHugepages))
    (fun s node => by
      rcases applyNumaNodeRecord_memory vm vmis his cs s node with ⟨a, b, _⟩
      simp [a, b])
    nodes s
  simp only [Prod.mk.injEq] at h
  exact h

theorem applyNumaWeight_hp_none (vm : VirtualMachine) (hpm : ℕ → Option Hugepages)
    (cs : List (ℕ × List ℕ)) (s : NumaState) (iw : ℕ × ℕ) (idx : ℕ)
    (hhb : vm.hugepages_backed = true) (hcfg : hpm idx = none) :
    (applyNumaWeight vm hpm cs s iw).allocatedHugepages idx = s.allocatedHugepages idx ∧
    (applyNumaWeight vm hpm cs s iw).allocatedMemory = s.allocatedMemory := by
  unfold applyNumaWeight
  simp only [hhb, if_true]
  cases hcase : hpm iw.1 with
  | some hp =>
    have hne : idx ≠ iw.1 := by
      intro h
      rw [h, hcase] at hcfg
      cases hcfg
    by_cases hu : (lookupCores cs iw.1).isEmpty <;> simp [hu, updAt, hne]
  | none =>
    by_cases hu : (lookupCores cs iw.1).isEmpty <;> simp [hu, updAt]

theorem firstLoop_hp_none (vm : VirtualMachine) (hpm : ℕ → Option Hugepages)
    (cs : List (ℕ × List ℕ)) (ws : List (ℕ × ℕ)) (s : NumaState) (idx : ℕ)
    (hhb : vm.hugepages_backed = true) (hcfg : hpm idx = none) :
    ((ws.foldl (applyNumaWeight vm hpm cs) s).allocatedHugepages idx
      = s.allocatedHugepages idx) ∧
    ((ws.foldl (applyNumaWeight vm hpm cs) s).allocatedMemory = s.allocatedMemory) := by
  have h := foldl_preserve (applyNumaWeight vm hpm cs)
    (fun s => (s.allocatedHugepages idx, s.allocatedMemory))
    (fun s iw => by
      rcases applyNumaWeight_hp_none vm hpm cs s iw idx hhb hcfg with ⟨a, b⟩
      simp [a, b])
    ws s
  simp only [Prod.mk.injEq] at h
  exact h

/-- C1 (amended): for a hugepages-backed VM, a weighted NUMA node that has no
hugepage configuration receives nothing at all: `_update_numanode_resources_usage`
leaves the node's allocated-hugepages counter unchanged and leaves every node's
allocated general-memory counter unchanged (the weighted amount is dropped,
not accumulated into the hugepages bucket and not moved to general memory). -/
theorem c1_unconfigured_node_dropped (vm : VirtualMachine)
    (vmis : List VirtualMachineInterface) (numanodes : List NumaNode)
    (hpm : ℕ → Option Hugepages) (his : List HostInterface)
    (st : NumaState) (idx : ℕ)
    (hhb : vm.hugepages_backed = true) (hcfg : hpm idx = none) :
    ((update_numanode_resources_usage vm vmis numanodes hpm his st).allocatedHugepages idx
      = st.allocatedHugepages idx) ∧
    ((update_numanode_resources_usage vm vmis numanodes hpm his st).allocatedMemory
      = st.allocatedMemory) := by
  unfold update_numanode_resources_usage
  have h2 := secondLoop_memory vm vmis his
    (get_vm_numanode_weights_and_cores vm numanodes).2 numanodes
    ((get_vm_numanode_weights_and_cores vm numanodes).1.foldl
      (applyNumaWeight vm hpm (get_vm_numanode_weights_and_cores vm numanodes).2) st)
  have h1 := firstLoop_hp_none vm hpm
    (get_vm_numanode_weights_and_cores vm numanodes).2
    (get_vm_numanode_weights_and_cores vm numanodes).1 st idx hhb hcfg
  constructor
  · rw [h2.2, h1.1]
  · rw [h2.1, h1.2]

/-- C6: for a VM with non-empty, duplicate-free pinned cores all of which are
found in some NUMA node's core set, the weight resolver's weights sum to
exactly 1 (in exact rational arithmetic) and the per-node core sets' sizes sum
to the number of pinned cores. -/
theorem c6_weight_partition_law (vm : VirtualMachine) (numanodes : List NumaNode)
    (hne : vm.pinned_cores ≠ [])
    (hnd : vm.pinned_cores.Nodup)
    (hcov : ∀ c ∈ vm.pinned_cores, ∃ n ∈ numanodes, c ∈ n.cores) :
    (((get_vm_numanode_weights_and_cores vm numanodes).1.map
        (fun p => ratWeight vm.pinned_cores.length p.2)).sum = 1) ∧
    (((get_vm_numanode_weights_and_cores vm numanodes).2.map
        (fun p => p.2.length)).sum = vm.pinned_cores.length) := by
  have hded : vm.pinned_cores.dedup = vm.pinned_cores := List.dedup_eq_self.mpr hnd
  have hcov2 : ∀ c ∈ vm.pinned_cores.dedup, ∃ n ∈ numanodes, c ∈ n.cores := by
    rw [hded]; exact hcov
  have hsum := weightsAux_cores_sum numanodes vm.pinned_cores.dedup hcov2
  rw [hded] at hsum
  have hlen : 0 < vm.pinned_cores.length := List.length_pos.mpr hne
  unfold get_vm_numanode_weights_and_cores
  rw [hded]
  refine ⟨?_, hsum⟩
  rw [map_ratWeight_sum, weightsAux_num_eq_len, hsum, div_self]
  exact Nat.cast_ne_zero.mpr hlen.ne'

/-- Witness for C6 at the specification's concrete scenario. -/
theorem c6_witness :
    (vmSample.pinned_cores ≠ [] ∧ vmSample.pinned_cores.Nodup ∧
      (∀ c ∈ vmSample.pinned_cores, ∃ n ∈ nodesSample, c ∈ n.cores)) ∧
    ((((get_vm_numanode_weights_and_cores vmSample nodesSample).1.map
        (fun p => ratWeight vmSample.pinned_cores.length p.2)).sum = 1) ∧
     (((get_vm_numanode_weights_and_cores vmSample nodesSample).2.map
        (fun p => p.2.length)).sum = vmSample.pinned_cores.length)) :=
  ⟨⟨by decide, by decide, by decide⟩,
   c6_weight_partition_law vmSample nodesSample (by decide) (by decide) (by decide)⟩

/-- C9: the weight resolver records a weight only when the intersection of the
VM's remaining cores with the node's cores is non-empty, which forces
`vm.pinned_cores` to be non-empty; the divisor `len(vm.pinned_cores)` is
therefore positive (and the recorded weight itself is positive), so the
division cannot be a division by zero. -/
theorem c9_weight_division_safe (vm : VirtualMachine) (numanodes : List NumaNode)
    (idx num : ℕ)
    (hmem : (idx, num) ∈ (get_vm_numanode_weights_and_cores vm numanodes).1) :
    0 < vm.pinned_cores.length ∧ 0 < ratWeight vm.pinned_cores.length num := by
  rcases weightsAux_mem_pos numanodes vm.pinned_cores.dedup idx num hmem with ⟨hnum, hded⟩
  have hne : vm.pinned_cores ≠ [] := by
    intro h
    apply hded
    rw [h]
    rfl
  have hlen : 0 < vm.pinned_cores.length := List.length_pos.mpr hne
  refine ⟨hlen, ?_⟩
  unfold ratWeight
  exact div_pos (by exact_mod_cast hnum) (by exact_mod_cast hlen)

/-- Witness for C9: the weight entry of node 0 in the concrete scenario. -/
theorem c9_witness :
    ((0, 2) ∈ (get_vm_numanode_weights_and_cores vmSample nodesSample).1) ∧
    (0 < vmSample.pinned_cores.length ∧ 0 < ratWeight vmSample.pinned_cores.length 2) :=
  ⟨by decide, c9_weight_division_safe vmSample nodesSample 0 2 (by decide)⟩

/-- C5 (amended): for a hugepages-backed VM and a weighted node with a
hugepage configuration, the amount accumulated into the node's hugepages
counter is a (non-negative) multiple of the page size and at least the
truncated weighted share `int(vm.memory * MB * weight)`; because the source
truncates to an integer before rounding up, the amount can fall short of the
exact real-valued share, but by strictly less than one byte. -/
theorem c5_hugepage_rounding_bounds (vm : VirtualMachine)
    (hpm : ℕ → Option Hugepages) (cs : List (ℕ × List ℕ))
    (st : NumaState) (idx num : ℕ) (hp : Hugepages)
    (hhb : vm.hugepages_backed = true)
    (hcfg : hpm idx = some hp)
    (hps : 0 < hp.page_size)
    (hlen : 0 < vm.pinned_cores.length) :
    ((applyNumaWeight vm hpm cs st (idx, num)).allocatedHugepages idx
        = st.allocatedHugepages idx + roundUpToPage (vmNodeMemory vm num) hp.page_size) ∧
    (hp.page_size ∣ roundUpToPage (vmNodeMemory vm num) hp.page_size) ∧
    (vmNodeMemory vm num ≤ roundUpToPage (vmNodeMemory vm num) hp.page_size) ∧
    (((vm.memory * MB : ℕ) : ℚ) * ratWeight vm.pinned_cores.length num - 1
        < ((roundUpToPage (vmNodeMemory vm num) hp.page_size : ℕ) : ℚ)) := by
  refine ⟨?_, roundUpToPage_dvd _ _, le_roundUpToPage _ _ hps, ?_⟩
  · simp only [applyNumaWeight, hhb, if_true, hcfg]
    by_cases hu : (lookupCores cs (idx, num).1).isEmpty <;> simp [hu, updAt]
  · have hb := natDiv_ratio_bounds (vm.memory * MB * num) vm.pinned_cores.length hlen
    have h2 : ((vm.memory * MB : ℕ) : ℚ) * ratWeight vm.pinned_cores.length num
        = ((vm.memory * MB * num : ℕ) : ℚ) / (vm.pinned_cores.length : ℚ) := by
      unfold ratWeight
      push_cast
      ring
    have h1 : ((vmNodeMemory vm num : ℕ) : ℚ)
        ≤ ((roundUpToPage (vmNodeMemory vm num) hp.page_size : ℕ) : ℚ) := by
      exact_mod_cast le_roundUpToPage _ _ hps
    have h4 : vmNodeMemory vm num = vm.memory * MB * num / vm.pinned_cores.length := rfl
    rw [h2, h4]
    rw [h4] at h1
    linarith [hb.1, h1]

/-- Witness for C5 at a concrete weighted share of 1048576/3. -/
theorem c5_witness :
    (vmSampleHuge.hugepages_backed = true ∧ hpmSampleSome 0 = some ⟨69905, 1000000⟩ ∧
      0 < (69905 : ℕ) ∧ 0 < vmSampleHuge.pinned_cores.length) ∧
    (((applyNumaWeight vmSampleHuge hpmSampleSome [] emptyNumaState (0, 1)).allocatedHugepages 0
        = emptyNumaState.allocatedHugepages 0
          + roundUpToPage (vmNodeMemory vmSampleHuge 1) (69905 : ℕ)) ∧
     ((69905 : ℕ) ∣ roundUpToPage (vmNodeMemory vmSampleHuge 1) (69905 : ℕ)) ∧
     (vmNodeMemory vmSampleHuge 1 ≤ roundUpToPage (vmNodeMemory vmSampleHuge 1) (69905 : ℕ)) ∧
     (((vmSampleHuge.memory * MB : ℕ) : ℚ) * ratWeight vmSampleHuge.pinned_cores.length 1 - 1
        < ((roundUpToPage (vmNodeMemory vmSampleHuge 1) (69905 : ℕ) : ℕ) : ℚ))) :=
  ⟨⟨by decide, by decide, by decide, by decide⟩,
   c5_hugepage_rounding_bounds vmSampleHuge hpmSampleSome [] emptyNumaState 0 1
     ⟨69905, 1000000⟩ (by decide) (by decide) (by decide) (by decide)⟩

/-- Counterexample to C5 as stated: in `podSampleC5` the VM's weight for node
0 is exactly 1/3, the node's allocated hugepages amount is 349525 (a multiple
of the page size 69905), yet the exact real-valued weighted share is
1048576/3 = 349525.33…, strictly greater than the accumulated amount, so the
"greater than or equal to the exact share" part of the claim is false. -/
theorem c5_counterexample :
    (((get_vm_host_resources podSampleC5 true).numa.map
        (fun nr => nr.memory.hugepages.map (fun h => (h.page_size, h.allocated)))) =
      [[(69905, 349525)], []]) ∧
    ((get_vm_numanode_weights_and_cores vmSampleHuge
        (sortNodesByIndex [⟨0, [0], 4096, some ⟨69905, 1000000⟩⟩, ⟨1, [1, 2], 4096, none⟩])).1
      = [(0, 1), (1, 2)]) ∧
    ((349525 : ℚ) < ((vmSampleHuge.memory * MB : ℕ) : ℚ) * ratWeight 3 1) := by
  refine ⟨by decide, by decide, ?_⟩
  norm_num [ratWeight, vmSampleHuge, MB]

/-- Counterexample to C1 as stated: in `podSampleC1` the hugepages-backed VM
has weight 1 on node 0 — an unrounded weighted amount of 1048576 bytes — and
node 0 has no hugepage configuration, yet the node's detail shows no hugepages
bucket at all and an untouched general-memory counter: the amount was dropped,
not accumulated into the node's hugepages allocated counter. -/
theorem c1_counterexample :
    (((get_vm_host_resources podSampleC1 true).numa.map
        (fun nr => (nr.node_id, nr.memory.general.allocated, nr.memory.hugepages))) =
      [(0, 0, [])]) ∧
    (vmNodeMemory ⟨1, none, "p", [0], 0, 1, true⟩ 1 = 1048576) ∧
    ((1048576 : ℕ) ≠ 0) :=
  ⟨by decide, by decide, by decide⟩

/-- Witness for C1's amended statement on concrete inputs. -/
theorem c1_witness :
    (vmSampleHuge.hugepages_backed = true ∧ hpmSampleNone 0 = none) ∧
    (((update_numanode_resources_usage vmSampleHuge [] nodesSample hpmSampleNone []
          emptyNumaState).allocatedHugepages 0
        = emptyNumaState.allocatedHugepages 0) ∧
     ((update_numanode_resources_usage vmSampleHuge [] nodesSample hpmSampleNone []
          emptyNumaState).allocatedMemory
        = emptyNumaState.allocatedMemory)) :=
  ⟨⟨by decide, rfl⟩,
   c1_unconfigured_node_dropped vmSampleHuge [] nodesSample hpmSampleNone []
     emptyNumaState 0 (by decide) rfl⟩

theorem weights_nil (vm : VirtualMachine) (numanodes : List NumaNode)
    (h : vm.pinned_cores = []) :
    get_vm_numanode_weights_and_cores vm numanodes = ([], []) := by
  unfold get_vm_numanode_weights_and_cores
  rw [h, List.dedup_nil]
  exact weightsAux_nil_cores numanodes

theorem applyNumaNodeRecord_no_vmis (vm : VirtualMachine) (his : List HostInterface)
    (s : NumaState) (node : NumaNode) :
    applyNumaNodeRecord vm [] his [] s node = s := by
  simp [applyNumaNodeRecord, lookupCores, sortedList]

/-- C2 (amended): a VM with empty `pinned_cores` contributes its
`unpinned_cores` to the global allocated-cores counter and 1 to the VM count,
and — when it has no attached network interfaces — processing it in the
detailed NUMA pass leaves the whole per-node state untouched: no cores
removed, no memory accumulated, no per-node VM record appended.  (Because of
the network clause of the second loop, the "regardless of any network
interfaces" part of the original claim is false; the VM does appear in a
node's detail when an interface attaches it there.) -/
theorem c2_unpinned_vm_scope (tp : String) (res : VMHostResources)
    (vm : VirtualMachine) (numanodes : List NumaNode) (hpm : ℕ → Option Hugepages)
    (his : List HostInterface) (st : NumaState)
    (h : vm.pinned_cores = []) :
    ((applyVmGlobal tp res vm).cores.allocated_tracked
        + (applyVmGlobal tp res vm).cores.allocated_other
      = res.cores.allocated_tracked + res.cores.allocated_other + vm.unpinned_cores) ∧
    ((applyVmGlobal tp res vm).vm_count.tracked + (applyVmGlobal tp res vm).vm_count.other
      = res.vm_count.tracked + res.vm_count.other + 1) ∧
    (update_numanode_resources_usage vm [] numanodes hpm his st = st) := by
  refine ⟨?_, ?_, ?_⟩
  · unfold applyVmGlobal
    split <;> simp [vmCoresCount, h] <;> omega
  · unfold applyVmGlobal
    split <;> simp <;> omega
  · unfold update_numanode_resources_usage
    rw [weights_nil vm numanodes h]
    simp only [List.foldl_nil]
    have hfold : ∀ (nodes : List NumaNode) (s : NumaState),
        nodes.foldl (applyNumaNodeRecord vm [] his []) s = s := by
      intro nodes
      induction nodes with
      | nil => intro s; rfl
      | cons nd t ih =>
        intro s
        rw [List.foldl_cons, applyNumaNodeRecord_no_vmis, ih]
    exact hfold numanodes st

/-- Counterexample to C2 as stated: in `podSampleC2` the only VM is fully
unpinned (`pinned_cores = []`, `unpinned_cores = 2`) but has a network
interface attached to host interface 7 on node 0; the detailed report places
a VM record (with empty pinned cores and that network) in node 0's `vms`
list, so an unpinned VM does not always stay out of per-node detail. -/
theorem c2_counterexample :
    (((get_vm_host_resources podSampleC2 true).numa.map
        (fun nr => (nr.node_id, nr.vms))) =
      [(0, [⟨none, [], [⟨7, none⟩]⟩]), (1, [])]) ∧
    ((podSampleC2.vms.map (fun vm => vm.pinned_cores)) = [[]]) :=
  ⟨by decide, by decide⟩

/-- Witness for C2's amended statement on concrete inputs. -/
theorem c2_witness :
    (vmSampleUnpinned.pinned_cores = []) ∧
    (((applyVmGlobal "p" {} vmSampleUnpinned).cores.allocated_tracked
        + (applyVmGlobal "p" {} vmSampleUnpinned).cores.allocated_other
      = ({} : VMHostResources).cores.allocated_tracked
        + ({} : VMHostResources).cores.allocated_other + vmSampleUnpinned.unpinned_cores) ∧
     ((applyVmGlobal "p" {} vmSampleUnpinned).vm_count.tracked
        + (applyVmGlobal "p" {} vmSampleUnpinned).vm_count.other
      = ({} : VMHostResources).vm_count.tracked
        + ({} : VMHostResources).vm_count.other + 1) ∧
     (update_numanode_resources_usage vmSampleUnpinned [] nodesSample hpmSampleNone []
        emptyNumaState = emptyNumaState)) :=
  ⟨by decide,
   c2_unpinned_vm_scope "p" {} vmSampleUnpinned nodesSample hpmSampleNone []
     emptyNumaState (by decide)⟩

/-- C8: when the pod has no bound physical host, `get_vm_host_resources`
returns the all-zero, all-empty report in both detailed and non-detailed
mode, raising no error. -/
theorem c8_missing_host_empty_report (pod : Pod) (detailed : Bool)
    (h : pod.host = none) :
    get_vm_host_resources pod detailed =
      { cores := ⟨0, 0, 0⟩,
        memory := ⟨⟨0, 0, 0⟩, ⟨0, 0, 0⟩⟩,
        storage := ⟨0, 0, 0⟩,
        vm_count := ⟨0, 0⟩,
        interfaces := [], vms := [], numa := [] } := by
  unfold get_vm_host_resources
  rw [h]

/-- Witness for C8 with a host-less pod that still has VMs, disks and pools. -/
theorem c8_witness :
    (podSampleNoHost.host = none) ∧
    (get_vm_host_resources podSampleNoHost true =
      { cores := ⟨0, 0, 0⟩,
        memory := ⟨⟨0, 0, 0⟩, ⟨0, 0, 0⟩⟩,
        storage := ⟨0, 0, 0⟩,
        vm_count := ⟨0, 0⟩,
        interfaces := [], vms := [], numa := [] }) :=
  ⟨rfl, c8_missing_host_empty_report podSampleNoHost true rfl⟩

theorem processVms_fst (numanodes : List NumaNode) (hpm : ℕ → Option Hugepages)
    (his : List HostInterface) (vmis : List VirtualMachineInterface) :
    ∀ (l : List VirtualMachine) (acc : List VMHostVirtualMachineResources × NumaState),
      (processVms numanodes hpm his vmis l acc).1 = acc.1 ++ l.map vmResourceRecord := by
  intro l
  induction l with
  | nil => intro acc; simp [processVms]
  | cons vm t ih =>
    intro acc
    rw [processVms, ih]
    simp

theorem update_global_keeps_vms_numa (pod : Pod) (host : Host)
    (res : VMHostResources) :
    ((update_global_resource_counters pod host res).vms = res.vms) ∧
    ((update_global_resource_counters pod host res).numa = res.numa) := by
  unfold update_global_resource_counters
  have hd1 := foldl_preserve (applyDiskGlobal pod) (fun r => r.vms)
    (fun r d => by unfold applyDiskGlobal; split <;> rfl) pod.disks
  have hd2 := foldl_preserve (applyDiskGlobal pod) (fun r => r.numa)
    (fun r d => by unfold applyDiskGlobal; split <;> rfl) pod.disks
  have hv1 := foldl_preserve (applyVmGlobal pod.tracked_project) (fun r => r.vms)
    (fun r vm => by unfold applyVmGlobal; split <;> rfl) pod.vms
  have hv2 := foldl_preserve (applyVmGlobal pod.tracked_project) (fun r => r.numa)
    (fun r vm => by unfold applyVmGlobal; split <;> rfl) pod.vms
  constructor <;> simp [hv1, hv2, hd1, hd2]

/-- C10: the report's top-level `vms` list is empty in non-detailed mode, and
in detailed mode (with a bound host) it holds exactly one record per VM of the
pod's tracked project, in order — VMs of other projects never appear in it. -/
theorem c10_vms_list_detailed_only (pod : Pod) :
    ((get_vm_host_resources pod false).vms = []) ∧
    (∀ host, pod.host = some host →
      (get_vm_host_resources pod true).vms = (trackedVms pod).map vmResourceRecord) := by
  constructor
  · unfold get_vm_host_resources
    cases hh : pod.host with
    | none => rfl
    | some host =>
      simp only [Bool.false_eq_true, if_false]
      exact (update_global_keeps_vms_numa pod host {}).1
  · intro host hh
    unfold get_vm_host_resources
    rw [hh]
    simp only [if_true]
    unfold update_detailed_resource_counters
    dsimp only
    rw [processVms_fst]
    simp

/-- Witness for C10 on a pod with one tracked and one other-project VM. -/
theorem c10_witness :
    ((get_vm_host_resources podSampleFull false).vms = []) ∧
    (podSampleFull.host = some ⟨nodesSample, [⟨7, "eth0", some 0, 8⟩, ⟨8, "eth1", some 1, 4⟩]⟩) ∧
    ((get_vm_host_resources podSampleFull true).vms
      = (trackedVms podSampleFull).map vmResourceRecord) :=
  ⟨(c10_vms_list_detailed_only podSampleFull).1, rfl,
   (c10_vms_list_detailed_only podSampleFull).2 _ rfl⟩

theorem update_detailed_congr (pod1 pod2 : Pod) (host : Host)
    (r1 r2 : VMHostResources)
    (hvm : trackedVms pod1 = trackedVms pod2)
    (hvi : pod1.vm_interfaces = pod2.vm_interfaces) :
    ((update_detailed_resource_counters pod1 host r1).numa
      = (update_detailed_resource_counters pod2 host r2).numa) ∧
    ((update_detailed_resource_counters pod1 host r1).vms
      = (update_detailed_resource_counters pod2 host r2).vms) := by
  unfold update_detailed_resource_counters
  rw [hvm, hvi]
  exact ⟨rfl, rfl⟩

/-- C3 (amended): the detailed NUMA pass does not consume all VMs of the
host — it consumes only VMs of the pod's tracked project.  Adding a VM of any
other project to the pod leaves both the per-node detail (`numa`) and the
top-level `vms` list of the detailed report unchanged, so such a VM
contributes no weighted memory, no core occupancy and no placement record. -/
theorem c3_detailed_pass_tracked_only (pod : Pod) (vm : VirtualMachine)
    (h : vm.project ≠ pod.tracked_project) :
    ((get_vm_host_resources { pod with vms := vm :: pod.vms } true).numa
      = (get_vm_host_resources pod true).numa) ∧
    ((get_vm_host_resources { pod with vms := vm :: pod.vms } true).vms
      = (get_vm_host_resources pod true).vms) := by
  have htr : trackedVms { pod with vms := vm :: pod.vms } = trackedVms pod := by
    unfold trackedVms isTrackedProject
    have hb : (vm.project == pod.tracked_project) = false := beq_eq_false_iff_ne.mpr h
    simp [List.filter_cons, hb]
  cases hh : pod.host with
  | none =>
    unfold get_vm_host_resources
    simp only [hh]
    exact ⟨trivial, trivial⟩
  | some host =>
    unfold get_vm_host_resources
    simp only [hh, if_true]
    have := update_detailed_congr { pod with vms := vm :: pod.vms } pod host
      (update_global_resource_counters { pod with vms := vm :: pod.vms } host {})
      (update_global_resource_counters pod host {}) htr rfl
    exact this

/-- Counterexample to C3 as stated: in `podSampleC3` the only VM belongs to a
non-tracked project and pins core 0, yet the detailed report shows node 0
with no allocated cores, both cores free, and an empty per-node VM list —
the other-project VM contributed nothing to the per-node detail. -/
theorem c3_counterexample :
    (((get_vm_host_resources podSampleC3 true).numa.map
        (fun nr => (nr.node_id, nr.cores.allocated, nr.cores.free, nr.vms.length))) =
      [(0, [], [0, 1], 0)]) ∧
    ((podSampleC3.vms.map (fun vm => (vm.project, vm.pinned_cores)))
      = [("other-project", [0])]) :=
  ⟨by decide, by decide⟩

/-- Witness for C3's amended statement on concrete inputs. -/
theorem c3_witness :
    (vmSampleOther.project ≠ podSampleFull.tracked_project) ∧
    (((get_vm_host_resources { podSampleFull with vms := vmSampleOther :: podSampleFull.vms } true).numa
      = (get_vm_host_resources podSampleFull true).numa) ∧
     ((get_vm_host_resources { podSampleFull with vms := vmSampleOther :: podSampleFull.vms } true).vms
      = (get_vm_host_resources podSampleFull true).vms)) :=
  ⟨by decide, c3_detailed_pass_tracked_only podSampleFull vmSampleOther (by decide)⟩

theorem update_detailed_keeps_interfaces (pod : Pod) (host : Host)
    (r : VMHostResources) :
    (update_detailed_resource_counters pod host r).interfaces = r.interfaces := rfl

theorem update_global_sets_interfaces (pod : Pod) (host : Host)
    (r : VMHostResources) :
    (update_global_resource_counters pod host r).interfaces
      = host.interfaces.map (buildGlobalInterface pod) := rfl

theorem buildGlobalInterface_spec (pod : Pod) (iface : HostInterface) :
    buildGlobalInterface pod iface =
      ⟨iface.id, iface.name,
       ⟨trackedSriovCount pod iface.id, otherSriovCount pod iface.id,
        (iface.sriov_max_vf : ℤ)
          - ((trackedSriovCount pod iface.id + otherSriovCount pod iface.id : ℕ) : ℤ)⟩⟩ := by
  have hT : trackedSriovCount pod iface.id =
      ((interfaceVmRows pod iface).filter
        (fun vi => vmTracked pod vi.vm_id && isSriovAttachment vi)).length := by
    unfold trackedSriovCount sriovVmisTo interfaceVmRows
    rw [List.filter_filter, List.filter_filter]
    congr 1
    apply List.filter_congr
    intro vi _
    cases h1 : (vi.host_interface_id == iface.id) <;>
      cases h2 : isSriovAttachment vi <;>
      cases h3 : vmTracked pod vi.vm_id <;> simp [h1, h2, h3]
  have hO : otherSriovCount pod iface.id =
      ((interfaceVmRows pod iface).filter
        (fun vi => !vmTracked pod vi.vm_id && isSriovAttachment vi)).length := by
    unfold otherSriovCount sriovVmisTo interfaceVmRows
    rw [List.filter_filter, List.filter_filter]
    congr 1
    apply List.filter_congr
    intro vi _
    cases h1 : (vi.host_interface_id == iface.id) <;>
      cases h2 : isSriovAttachment vi <;>
      cases h3 : vmTracked pod vi.vm_id <;> simp [h1, h2, h3]
  unfold buildGlobalInterface interfaceGroups
  by_cases hempty : (interfaceVmRows pod iface).isEmpty
  · have hnil : interfaceVmRows pod iface = [] := by
      rwa [List.isEmpty_iff] at hempty
    rw [hT, hO, hnil]
    simp [hempty]
  · simp only [hempty, Bool.false_eq_true, if_false]
    rw [hT, hO]
    set rows := interfaceVmRows pod iface with hrows
    have e1 : ∀ vi : VirtualMachineInterface,
        ((vmTracked pod vi.vm_id == true) && (isSriovAttachment vi == true))
          = (vmTracked pod vi.vm_id && isSriovAttachment vi) := by
      intro vi
      cases vmTracked pod vi.vm_id <;> cases isSriovAttachment vi <;> rfl
    have e2 : ∀ vi : VirtualMachineInterface,
        ((vmTracked pod vi.vm_id == false) && (isSriovAttachment vi == true))
          = (!vmTracked pod vi.vm_id && isSriovAttachment vi) := by
      intro vi
      cases vmTracked pod vi.vm_id <;> cases isSriovAttachment vi <;> rfl
    simp only [List.filterMap_cons, List.filterMap_nil]
    simp only [e1, e2]
    set cTT := (rows.filter (fun vi => vmTracked pod vi.vm_id && isSriovAttachment vi)).length
      with hcTT
    set cFT := (rows.filter (fun vi => !vmTracked pod vi.vm_id && isSriovAttachment vi)).length
      with hcFT
    by_cases h1 : cTT = 0 <;> by_cases h2 : cFT = 0 <;>
      by_cases h3 : ((rows.filter (fun vi =>
          (vmTracked pod vi.vm_id == true) && (isSriovAttachment vi == false))).length = 0) <;>
      by_cases h4 : ((rows.filter (fun vi =>
          (vmTracked pod vi.vm_id == false) && (isSriovAttachment vi == false))).length = 0) <;>
      (first | rw [if_pos h1] | rw [if_neg h1]) <;>
      (first | rw [if_pos h3] | rw [if_neg h3]) <;>
      (first | rw [if_pos h2] | rw [if_neg h2]) <;>
      (first | rw [if_pos h4] | rw [if_neg h4]) <;>
      simp <;>
      (try simp [h1, h2]) <;>
      omega

/-- C7: in the global report each host interface appears (even with no SRIOV
attachments), its allocated VF counts equal the numbers of SRIOV VM-interface
attachments split by ownership of the attaching VM, and `free` is
`sriov_max_vf` minus the total allocated count; an interface with no SRIOV
attachments keeps `allocated = 0` and `free = sriov_max_vf`. -/
theorem c7_global_interface_accounting (pod : Pod) (host : Host)
    (iface : HostInterface) (detailed : Bool)
    (hh : pod.host = some host) (hmem : iface ∈ host.interfaces) :
    ((get_vm_host_resources pod detailed).interfaces
        = host.interfaces.map (buildGlobalInterface pod)) ∧
    (buildGlobalInterface pod iface ∈ (get_vm_host_resources pod detailed).interfaces) ∧
    (buildGlobalInterface pod iface =
      ⟨iface.id, iface.name,
       ⟨trackedSriovCount pod iface.id, otherSriovCount pod iface.id,
        (iface.sriov_max_vf : ℤ)
          - ((trackedSriovCount pod iface.id + otherSriovCount pod iface.id : ℕ) : ℤ)⟩⟩) := by
  have h1 : (get_vm_host_resources pod detailed).interfaces
      = host.interfaces.map (buildGlobalInterface pod) := by
    unfold get_vm_host_resources
    rw [hh]
    cases detailed with
    | false =>
      simp only [Bool.false_eq_true, if_false]
      exact update_global_sets_interfaces pod host _
    | true =>
      simp only [if_true]
      rw [update_detailed_keeps_interfaces]
      exact update_global_sets_interfaces pod host _
  refine ⟨h1, ?_, buildGlobalInterface_spec pod iface⟩
  rw [h1]
  exact List.mem_map_of_mem (buildGlobalInterface pod) hmem

/-- Witness for C7 on `podSampleFull` and its interface `eth0`. -/
theorem c7_witness :
    (podSampleFull.host = some ⟨nodesSample, [⟨7, "eth0", some 0, 8⟩, ⟨8, "eth1", some 1, 4⟩]⟩ ∧
      (⟨7, "eth0", some 0, 8⟩ : HostInterface) ∈
        (⟨nodesSample, [⟨7, "eth0", some 0, 8⟩, ⟨8, "eth1", some 1, 4⟩]⟩ : Host).interfaces) ∧
    (((get_vm_host_resources podSampleFull true).interfaces
        = (⟨nodesSample, [⟨7, "eth0", some 0, 8⟩, ⟨8, "eth1", some 1, 4⟩]⟩ : Host).interfaces.map
            (buildGlobalInterface podSampleFull)) ∧
     (buildGlobalInterface podSampleFull ⟨7, "eth0", some 0, 8⟩
        ∈ (get_vm_host_resources podSampleFull true).interfaces) ∧
     (buildGlobalInterface podSampleFull ⟨7, "eth0", some 0, 8⟩ =
       ⟨7, "eth0",
        ⟨trackedSriovCount podSampleFull 7, otherSriovCount podSampleFull 7,
         ((8 : ℕ) : ℤ)
           - ((trackedSriovCount podSampleFull 7 + otherSriovCount podSampleFull 7 : ℕ) : ℤ)⟩⟩)) :=
  ⟨⟨rfl, by decide⟩,
   c7_global_interface_accounting podSampleFull
     ⟨nodesSample, [⟨7, "eth0", some 0, 8⟩, ⟨8, "eth1", some 1, 4⟩]⟩
     ⟨7, "eth0", some 0, 8⟩ true rfl (by decide)⟩

theorem find?_id_unique (iface : HostInterface) : ∀ (l : List HostInterface),
    (l.map (fun hi => hi.id)).Nodup → iface ∈ l →
    l.find? (fun hi => hi.id == iface.id) = some iface := by
  intro l
  induction l with
  | nil => intro _ hmem; cases hmem
  | cons hd t ih =>
    intro hnd hmem
    rw [List.map_cons, List.nodup_cons] at hnd
    rcases List.mem_cons.mp hmem with rfl | hmem2
    · simp [List.find?_cons]
    · have hne : (hd.id == iface.id) = false := by
        refine beq_eq_false_iff_ne.mpr ?_
        intro he
        exact hnd.1 (he ▸ (List.mem_map_of_mem (fun hi => hi.id) hmem2))
      simp only [List.find?_cons, hne]
      exact ih hnd.2 hmem2

theorem filter_id_unique (iface : HostInterface) (p : HostInterface → Bool) :
    ∀ (l : List HostInterface),
    (l.map (fun hi => hi.id)).Nodup → iface ∈ l →
    l.filter (fun hi => (hi.id == iface.id) && p hi)
      = if p iface then [iface] else [] := by
  intro l
  induction l with
  | nil => intro _ hmem; cases hmem
  | cons hd t ih =>
    intro hnd hmem
    rw [List.map_cons, List.nodup_cons] at hnd
    rcases List.mem_cons.mp hmem with rfl | hmem2
    · have ht : t.filter (fun hi => (hi.id == iface.id) && p hi) = [] := by
        rw [List.filter_eq_nil_iff]
        intro hi hmemt
        have hne : (hi.id == iface.id) = false := by
          refine beq_eq_false_iff_ne.mpr ?_
          intro he
          exact hnd.1 (he ▸ (List.mem_map_of_mem (fun hi => hi.id) hmemt))
        simp [hne]
      rw [List.filter_cons, ht]
      cases hp : p iface <;> simp [hp]
    · have hne : (hd.id == iface.id) = false := by
        refine beq_eq_false_iff_ne.mpr ?_
        intro he
        exact hnd.1 (he ▸ (List.mem_map_of_mem (fun hi => hi.id) hmem2))
      rw [List.filter_cons]
      have hpred : ((hd.id == iface.id) && p hd) = false := by simp [hne]
      simp only [hpred, Bool.false_eq_true, if_false]
      exact ih hnd.2 hmem2

theorem vmiNumaIndex_attached (l : List HostInterface) (iface : HostInterface)
    (vi : VirtualMachineInterface)
    (hnd : (l.map (fun hi => hi.id)).Nodup) (hmem : iface ∈ l)
    (hatt : vi.host_interface_id = iface.id) :
    vmiNumaIndex l vi = iface.numa_index := by
  unfold vmiNumaIndex
  rw [hatt, find?_id_unique iface l hnd hmem]
  rfl

theorem interfacesAtNode_filter_id (l : List HostInterface) (iface : HostInterface)
    (m : ℕ)
    (hnd : (l.map (fun hi => hi.id)).Nodup) (hmem : iface ∈ l) :
    (interfacesAtNode l m).filter (fun hi => hi.id == iface.id)
      = if (iface.numa_index == some m) then [iface] else [] := by
  unfold interfacesAtNode
  rw [List.filter_filter]
  exact filter_id_unique iface (fun hi => hi.numa_index == some m) l hnd hmem

theorem foldl_delta {σ α : Type} (f : σ → α → σ) (proj : σ → ℕ) (g : α → ℕ)
    (h : ∀ s a, proj (f s a) = proj s + g a) :
    ∀ (l : List α) (s : σ), proj (l.foldl f s) = proj s + (l.map g).sum := by
  intro l
  induction l with
  | nil => intro s; simp
  | cons a t ih =>
    intro s
    rw [List.foldl_cons, ih, h, List.map_cons, List.sum_cons]
    omega

theorem sum_indicator {α : Type} (p : α → Bool) : ∀ (l : List α),
    (l.map (fun a => if p a then 1 else 0)).sum = (l.filter p).length := by
  intro l
  induction l with
  | nil => rfl
  | cons a t ih =>
    rw [List.map_cons, List.sum_cons, List.filter_cons]
    cases h : p a <;> simp [h, ih] <;> omega

theorem length_filter_or_disjoint {α : Type} (l : List α) (p q r : α → Bool)
    (hdisj : ∀ a, q a = false ∨ r a = false) :
    (l.filter (fun a => p a && (q a || r a))).length
      = (l.filter (fun a => p a && q a)).length
        + (l.filter (fun a => p a && r a)).length := by
  induction l with
  | nil => rfl
  | cons a t ih =>
    rw [List.filter_cons, List.filter_cons, List.filter_cons]
    rcases hdisj a with hqa | hra
    · cases hp : p a <;> cases hr : r a <;> simp [hp, hqa, hr, ih] <;> omega
    · cases hp : p a <;> cases hq : q a <;> simp [hp, hq, hra, ih] <;> omega

theorem sum_if_index_zero (n c : ℕ) : ∀ (nodes : List NumaNode),
    n ∉ nodes.map (fun nd => nd.index) →
    ((nodes.map (fun nd => if nd.index = n then c else 0)).sum = 0) := by
  intro nodes
  induction nodes with
  | nil => intro _; rfl
  | cons nd t ih =>
    intro hn
    rw [List.map_cons, List.sum_cons]
    rw [List.map_cons] at hn
    have h1 : nd.index ≠ n := by
      intro he
      exact hn (by simp [he])
    have h2 : n ∉ t.map (fun nd => nd.index) := by
      intro hm
      exact hn (by simp [hm])
    simp [h1, ih h2]

theorem sum_if_index_one (n c : ℕ) : ∀ (nodes : List NumaNode),
    (nodes.map (fun nd => nd.index)).Nodup → n ∈ nodes.map (fun nd => nd.index) →
    ((nodes.map (fun nd => if nd.index = n then c else 0)).sum = c) := by
  intro nodes
  induction nodes with
  | nil => intro _ hm; cases hm
  | cons nd t ih =>
    intro hnd hm
    rw [List.map_cons, List.nodup_cons] at hnd
    rw [List.map_cons, List.sum_cons]
    rcases List.mem_cons.mp hm with rfl | hm2
    · simp [sum_if_index_zero nd.index c t hnd.1]
    · have h1 : nd.index ≠ n := by
        intro he
        exact hnd.1 (he ▸ hm2)
      simp [h1, ih hnd.2 hm2]

theorem insertNodeByIndex_perm (nd : NumaNode) : ∀ (l : List NumaNode),
    List.Perm (insertNodeByIndex nd l) (nd :: l) := by
  intro l
  induction l with
  | nil => exact List.Perm.refl _
  | cons m ms ih =>
    unfold insertNodeByIndex
    split
    · exact List.Perm.refl _
    · exact List.Perm.trans (List.Perm.cons m ih) (List.Perm.swap nd m ms)

theorem sortNodesByIndex_perm : ∀ (l : List NumaNode),
    List.Perm (sortNodesByIndex l) l := by
  intro l
  induction l with
  | nil => exact List.Perm.refl _
  | cons nd t ih =>
    exact List.Perm.trans (insertNodeByIndex_perm nd (sortNodesByIndex t))
      (List.Perm.cons nd ih)

theorem beq_nat_comm (a b : ℕ) : (a == b) = (b == a) := by
  by_cases h : a = b
  · simp [h]
  · have h2 : b ≠ a := fun he => h he.symm
    simp [beq_eq_false_iff_ne.mpr h, beq_eq_false_iff_ne.mpr h2]

theorem vfs_inner_fold (vi : VirtualMachineInterface) (i : ℕ) :
    ∀ (his : List HostInterface) (s : NumaState),
      (his.foldl (vfIncrStep vi) s).allocatedVfs i
        = s.allocatedVfs i
          + (if vi.host_interface_id = i
             then (his.filter (fun hi => hi.id == i)).length else 0) := by
  intro his
  induction his with
  | nil => intro s; simp
  | cons hi t ih =>
    intro s
    rw [List.foldl_cons, ih, List.filter_cons]
    unfold vfIncrStep
    by_cases h1 : hi.id = vi.host_interface_id
    · by_cases h2 : vi.host_interface_id = i
      · have h3 : hi.id = i := h1.trans h2
        simp [h1, h2, h3, updAt]
        omega
      · have h3 : (hi.id == i) = false := by
          refine beq_eq_false_iff_ne.mpr ?_
          intro he
          exact h2 (h1.symm.trans he)
        simp [h1, h2, h3, updAt]
        exact fun he => absurd he.symm h2
    · by_cases h2 : vi.host_interface_id = i
      · have h3 : (hi.id == i) = false := by
          refine beq_eq_false_iff_ne.mpr ?_
          intro he
          exact h1 (he.trans h2.symm)
        have h5 : ¬ hi.id = i := by
          intro he
          exact h1 (he.trans h2.symm)
        simp [h1, h2, h3, h5]
      · simp [h1, h2]

theorem vfs_vmi_delta (his : List HostInterface) (m i : ℕ) (s : NumaState)
    (vi : VirtualMachineInterface) :
    (vfIncrVmi his m s vi).allocatedVfs i
      = s.allocatedVfs i
        + (if (vi.host_interface_id == i) && isSriovAttachment vi
           then ((interfacesAtNode his m).filter (fun hi => hi.id == i)).length else 0) := by
  unfold vfIncrVmi
  cases hs : isSriovAttachment vi
  · simp [hs]
  · simp only [hs, if_true, Bool.and_true]
    rw [vfs_inner_fold]
    by_cases h2 : vi.host_interface_id = i
    · simp [h2]
    · simp [h2, beq_eq_false_iff_ne.mpr h2]

theorem applyNumaNodeRecord_keeps_vfs (vm : VirtualMachine)
    (vmis : List VirtualMachineInterface) (his : List HostInterface)
    (cs : List (ℕ × List ℕ)) (s : NumaState) (node : NumaNode) :
    (applyNumaNodeRecord vm vmis his cs s node).allocatedVfs
      = ((vmis.filter (fun vi => vmiNumaIndex his vi == some node.index)).foldl
          (vfIncrVmi his node.index) s).allocatedVfs := by
  simp only [applyNumaNodeRecord]
  split <;> rfl

theorem sum_map_zero_list {α : Type} : ∀ (l : List α), (l.map (fun _ => (0 : ℕ))).sum = 0 := by
  intro l
  induction l with
  | nil => rfl
  | cons a t ih => rw [List.map_cons, List.sum_cons, ih]

theorem length_filter_ext {α : Type} (p q : α → Bool) (l : List α)
    (h : ∀ a ∈ l, p a = q a) : (l.filter p).length = (l.filter q).length := by
  rw [List.filter_congr h]

theorem vfs_node_delta (vm : VirtualMachine) (vmis : List VirtualMachineInterface)
    (his : List HostInterface) (cs : List (ℕ × List ℕ)) (iface : HostInterface) (n : ℕ)
    (hnd : (his.map (fun hi => hi.id)).Nodup) (hmem : iface ∈ his)
    (hnuma : iface.numa_index = some n)
    (s : NumaState) (node : NumaNode) :
    (applyNumaNodeRecord vm vmis his cs s node).allocatedVfs iface.id
      = s.allocatedVfs iface.id
        + (if node.index = n then sriovCountTo vmis iface.id else 0) := by
  rw [congrFun (applyNumaNodeRecord_keeps_vfs vm vmis his cs s node) iface.id]
  have hdelta := foldl_delta (vfIncrVmi his node.index)
    (fun s => s.allocatedVfs iface.id)
    (fun vi => if (vi.host_interface_id == iface.id) && isSriovAttachment vi
       then ((interfacesAtNode his node.index).filter (fun hi => hi.id == iface.id)).length
       else 0)
    (fun s vi => vfs_vmi_delta his node.index iface.id s vi)
    (vmis.filter (fun vi => vmiNumaIndex his vi == some node.index)) s
  rw [hdelta]
  congr 1
  have hlen := interfacesAtNode_filter_id his iface node.index hnd hmem
  by_cases hidx : node.index = n
  · have hlen1 : ((interfacesAtNode his node.index).filter
        (fun hi => hi.id == iface.id)).length = 1 := by
      rw [hlen, hnuma]
      have hc : ((some n : Option ℕ) == some node.index) = true := by simp [hidx]
      rw [hc]
      rfl
    rw [if_pos hidx]
    have hfun : ∀ vi : VirtualMachineInterface,
        (if (vi.host_interface_id == iface.id) && isSriovAttachment vi
         then ((interfacesAtNode his node.index).filter
           (fun hi => hi.id == iface.id)).length else 0)
        = (if ((vi.host_interface_id == iface.id) && isSriovAttachment vi) = true
           then 1 else 0) := by
      intro vi
      rw [hlen1]
    simp only [hfun]
    rw [sum_indicator]
    rw [List.filter_filter]
    unfold sriovCountTo
    apply length_filter_ext
    intro vi _
    cases hatt : (vi.host_interface_id == iface.id)
    · simp [hatt]
    · have hv := vmiNumaIndex_attached his iface vi hnd hmem (beq_iff_eq.mp hatt)
      have hnp : (vmiNumaIndex his vi == some node.index) = true := by
        rw [hv, hnuma, hidx]
        simp
      simp [hatt, hnp]
  · have hlen0 : ((interfacesAtNode his node.index).filter
        (fun hi => hi.id == iface.id)).length = 0 := by
      rw [hlen, hnuma]
      have hc : ((some n : Option ℕ) == some node.index) = false := by
        simp
        intro he
        exact hidx he.symm
      rw [hc]
      rfl
    rw [if_neg hidx]
    have hfun : ∀ vi : VirtualMachineInterface,
        (if (vi.host_interface_id == iface.id) && isSriovAttachment vi
         then ((interfacesAtNode his node.index).filter
           (fun hi => hi.id == iface.id)).length else 0)
        = 0 := by
      intro vi
      rw [hlen0]
      split <;> rfl
    simp only [hfun]
    rw [sum_map_zero_list]

theorem applyNumaWeight_keeps_vfs (vm : VirtualMachine) (hpm : ℕ → Option Hugepages)
    (cs : List (ℕ × List ℕ)) (s : NumaState) (iw : ℕ × ℕ) :
    (applyNumaWeight vm hpm cs s iw).allocatedVfs = s.allocatedVfs := by
  unfold applyNumaWeight
  by_cases hb : vm.hugepages_backed <;>
    cases hc : hpm iw.1 <;>
    by_cases hu : (lookupCores cs iw.1).isEmpty <;>
    simp [hb, hc, hu]

theorem vfs_vm_delta (vm : VirtualMachine) (vmis : List VirtualMachineInterface)
    (nodes : List NumaNode) (hpm : ℕ → Option Hugepages) (his : List HostInterface)
    (iface : HostInterface) (n : ℕ)
    (hnd : (his.map (fun hi => hi.id)).Nodup) (hmem : iface ∈ his)
    (hnuma : iface.numa_index = some n)
    (hnidx : (nodes.map (fun nd => nd.index)).Nodup)
    (hn : n ∈ nodes.map (fun nd => nd.index))
    (s : NumaState) :
    (update_numanode_resources_usage vm vmis nodes hpm his s).allocatedVfs iface.id
      = s.allocatedVfs iface.id + sriovCountTo vmis iface.id := by
  unfold update_numanode_resources_usage
  have h1 := foldl_preserve (applyNumaWeight vm hpm (get_vm_numanode_weights_and_cores vm nodes).2)
    (fun s => s.allocatedVfs)
    (fun s iw => applyNumaWeight_keeps_vfs vm hpm _ s iw)
    (get_vm_numanode_weights_and_cores vm nodes).1 s
  have h2 := foldl_delta
    (applyNumaNodeRecord vm vmis his (get_vm_numanode_weights_and_cores vm nodes).2)
    (fun s => s.allocatedVfs iface.id)
    (fun node => if node.index = n then sriovCountTo vmis iface.id else 0)
    (fun s node => vfs_node_delta vm vmis his _ iface n hnd hmem hnuma s node)
    nodes
    ((get_vm_numanode_weights_and_cores vm nodes).1.foldl
      (applyNumaWeight vm hpm (get_vm_numanode_weights_and_cores vm nodes).2) s)
  rw [h2, congrFun h1 iface.id, sum_if_index_one n _ nodes hnidx hn]

theorem processVms_vfs (nodes : List NumaNode) (hpm : ℕ → Option Hugepages)
    (his : List HostInterface) (vmisAll : List VirtualMachineInterface)
    (iface : HostInterface) (n : ℕ)
    (hnd : (his.map (fun hi => hi.id)).Nodup) (hmem : iface ∈ his)
    (hnuma : iface.numa_index = some n)
    (hnidx : (nodes.map (fun nd => nd.index)).Nodup)
    (hn : n ∈ nodes.map (fun nd => nd.index)) :
    ∀ (l : List VirtualMachine) (acc : List VMHostVirtualMachineResources × NumaState),
      (processVms nodes hpm his vmisAll l acc).2.allocatedVfs iface.id
        = acc.2.allocatedVfs iface.id
          + (l.map (fun vm => sriovCountTo
              (vmisAll.filter (fun vi => vi.vm_id == vm.id)) iface.id)).sum := by
  intro l
  induction l with
  | nil => intro acc; simp [processVms]
  | cons vm t ih =>
    intro acc
    rw [processVms, ih]
    rw [vfs_vm_delta vm (vmisAll.filter (fun vi => vi.vm_id == vm.id)) nodes hpm his
      iface n hnd hmem hnuma hnidx hn acc.2]
    rw [List.map_cons, List.sum_cons]
    omega

theorem any_eq_false_of (l : List VirtualMachine) (p : VirtualMachine → Bool)
    (h : ∀ v ∈ l, p v = false) : l.any p = false := by
  induction l with
  | nil => rfl
  | cons a t ih =>
    rw [List.any_cons, h a (by simp), ih (fun v hv => h v (by simp [hv]))]
    rfl

theorem filter_any_eq_find (tp : String) (x : ℕ) : ∀ (l : List VirtualMachine),
    (l.map (fun vm => vm.id)).Nodup →
    ((l.filter (fun vm => vm.project == tp)).any (fun vm => vm.id == x))
      = (match l.find? (fun vm => vm.id == x) with
         | some vm => vm.project == tp
         | none => false) := by
  intro l
  induction l with
  | nil => intro _; rfl
  | cons vm t ih =>
    intro hnd
    rw [List.map_cons, List.nodup_cons] at hnd
    rw [List.filter_cons]
    by_cases hx : vm.id = x
    · have hbx : (vm.id == x) = true := beq_iff_eq.mpr hx
      have hfind : (vm :: t).find? (fun vm => vm.id == x) = some vm := by
        simp only [List.find?_cons, hbx]
      rw [hfind]
      cases hp : (vm.project == tp)
      · simp only [Bool.false_eq_true, if_false]
        have hnone : ((t.filter (fun vm => vm.project == tp)).any
            (fun vm => vm.id == x)) = false := by
          apply any_eq_false_of
          intro v hv
          refine beq_eq_false_iff_ne.mpr ?_
          intro he
          have hvt : v ∈ t := List.mem_of_mem_filter hv
          have hmapmem : v.id ∈ t.map (fun vm => vm.id) :=
            List.mem_map_of_mem (fun vm => vm.id) hvt
          have hvm : v.id = vm.id := he.trans hx.symm
          rw [hvm] at hmapmem
          exact hnd.1 hmapmem
        rw [hnone, hp]
      · simp only [if_true, List.any_cons, hbx, Bool.true_or]
        exact hp.symm
    · have hbx : (vm.id == x) = false := beq_eq_false_iff_ne.mpr hx
      have hfind : (vm :: t).find? (fun vm => vm.id == x) = t.find? (fun vm => vm.id == x) := by
        simp only [List.find?_cons, hbx]
      rw [hfind]
      cases hp : (vm.project == tp)
      · simp only [Bool.false_eq_true, if_false]
        exact ih hnd.2
      · simp only [if_true, List.any_cons, hbx, Bool.false_or]
        exact ih hnd.2

theorem trackedVms_any_id (pod : Pod) (x : ℕ)
    (hnd : (pod.vms.map (fun vm => vm.id)).Nodup) :
    ((trackedVms pod).any (fun vm => vm.id == x)) = vmTracked pod x := by
  unfold trackedVms vmTracked isTrackedProject
  exact filter_any_eq_find pod.tracked_project x pod.vms hnd

theorem sum_per_vm_counts (i : ℕ) (L : List VirtualMachineInterface) :
    ∀ (l : List VirtualMachine),
      (l.map (fun vm => vm.id)).Nodup →
      ((l.map (fun vm => sriovCountTo (L.filter (fun vi => vi.vm_id == vm.id)) i)).sum
        = (L.filter (fun vi => (vi.host_interface_id == i && isSriovAttachment vi)
             && l.any (fun vm => vm.id == vi.vm_id))).length) := by
  intro l
  induction l with
  | nil =>
    intro _
    simp
  | cons vm t ih =>
    intro hnd
    rw [List.map_cons, List.nodup_cons] at hnd
    rw [List.map_cons, List.sum_cons, ih hnd.2]
    have hhead : sriovCountTo (L.filter (fun vi => vi.vm_id == vm.id)) i
        = (L.filter (fun vi => (vi.host_interface_id == i && isSriovAttachment vi)
            && (vm.id == vi.vm_id))).length := by
      unfold sriovCountTo
      rw [List.filter_filter]
      apply length_filter_ext
      intro vi _
      rw [beq_nat_comm vi.vm_id vm.id]
    have hany : ∀ vi : VirtualMachineInterface,
        ((vm :: t).any (fun v => v.id == vi.vm_id))
          = ((vm.id == vi.vm_id) || t.any (fun v => v.id == vi.vm_id)) := by
      intro vi
      rw [List.any_cons]
    have hsplit := length_filter_or_disjoint L
      (fun vi => vi.host_interface_id == i && isSriovAttachment vi)
      (fun vi => vm.id == vi.vm_id)
      (fun vi => t.any (fun v => v.id == vi.vm_id))
      (by
        intro vi
        by_cases hb : vm.id = vi.vm_id
        · right
          apply any_eq_false_of
          intro v hv
          refine beq_eq_false_iff_ne.mpr ?_
          intro he
          have hmapmem : v.id ∈ t.map (fun vm => vm.id) :=
            List.mem_map_of_mem (fun vm => vm.id) hv
          rw [he, ← hb] at hmapmem
          exact hnd.1 hmapmem
        · left
          exact beq_eq_false_iff_ne.mpr hb)
    have hcongr : (L.filter (fun vi => (vi.host_interface_id == i && isSriovAttachment vi)
          && (vm :: t).any (fun v => v.id == vi.vm_id))).length
        = (L.filter (fun vi => (vi.host_interface_id == i && isSriovAttachment vi)
          && ((vm.id == vi.vm_id) || t.any (fun v => v.id == vi.vm_id)))).length := by
      apply length_filter_ext
      intro vi _
      rw [hany vi]
    rw [hcongr]
    rw [hsplit]
    rw [hhead]

theorem filter_map_entries (vfs : ℕ → ℕ) (i : ℕ) : ∀ (l : List HostInterface),
    ((((l.map (fun hi =>
        ({ id := hi.id, name := hi.name,
           virtual_functions :=
             { free := (hi.sriov_max_vf : ℤ) - (vfs hi.id : ℤ),
               allocated := vfs hi.id } } : NUMAPinningHostInterfaceResources))).filter
        (fun e => e.id == i)).map
      (fun e => e.virtual_functions.allocated)).sum)
      = ((l.filter (fun hi => hi.id == i)).map (fun hi => vfs hi.id)).sum := by
  intro l
  induction l with
  | nil => rfl
  | cons hi t ih =>
    rw [List.map_cons, List.filter_cons, List.filter_cons]
    cases h : (hi.id == i) <;> simp [h, ih]

theorem numa_entry_vf_sum (his : List HostInterface) (iface : HostInterface)
    (vfs : ℕ → ℕ) (n : ℕ)
    (hnd : (his.map (fun hi => hi.id)).Nodup) (hmem : iface ∈ his)
    (hnuma : iface.numa_index = some n)
    (nd : NumaNode) (available : List ℕ) (am : ℕ) (hp : Option Hugepages) (ah : ℕ)
    (vr : List NUMAPinningVirtualMachineResources) :
    ((((get_numa_pinning_resources nd available am hp ah vr his vfs).interfaces.filter
        (fun e => e.id == iface.id)).map
      (fun e => e.virtual_functions.allocated)).sum)
      = (if nd.index = n then vfs iface.id else 0) := by
  have h0 : (get_numa_pinning_resources nd available am hp ah vr his vfs).interfaces
      = (interfacesAtNode his nd.index).map (fun hi =>
        ({ id := hi.id, name := hi.name,
           virtual_functions :=
             { free := (hi.sriov_max_vf : ℤ) - (vfs hi.id : ℤ),
               allocated := vfs hi.id } } : NUMAPinningHostInterfaceResources)) := rfl
  rw [h0, filter_map_entries vfs iface.id (interfacesAtNode his nd.index)]
  rw [interfacesAtNode_filter_id his iface nd.index hnd hmem, hnuma]
  by_cases hidx : nd.index = n
  · have hc : ((some n : Option ℕ) == some nd.index) = true := by simp [hidx]
    rw [hc, if_pos hidx]
    simp
  · have hc : ((some n : Option ℕ) == some nd.index) = false := by
      simp
      intro he
      exact hidx he.symm
    rw [hc, if_neg hidx]
    rfl

/-- C4 (amended): the per-node allocated VF counts recorded in the NUMA detail
for a host interface sum to the number of SRIOV attachments to it coming from
tracked-project VMs, while the interface's globally reported allocated count
covers SRIOV attachments from all VMs; the two coincide exactly when the
interface has no SRIOV attachments from other-project VMs (as in the
specification's concrete scenario, where all three attachments are
tracked). -/
theorem c4_pernode_vf_sum_tracked (pod : Pod) (host : Host) (iface : HostInterface)
    (n : ℕ)
    (hh : pod.host = some host)
    (hmem : iface ∈ host.interfaces)
    (hnuma : iface.numa_index = some n)
    (hids : (host.interfaces.map (fun hi => hi.id)).Nodup)
    (hnidx : (host.numanodes.map (fun nd => nd.index)).Nodup)
    (hn : n ∈ host.numanodes.map (fun nd => nd.index))
    (hvmids : (pod.vms.map (fun vm => vm.id)).Nodup) :
    (numaVfAllocatedSum (get_vm_host_resources pod true) iface.id
        = trackedSriovCount pod iface.id) ∧
    ((buildGlobalInterface pod iface).virtual_functions.allocated
        = trackedSriovCount pod iface.id + otherSriovCount pod iface.id) ∧
    (otherSriovCount pod iface.id = 0 →
      numaVfAllocatedSum (get_vm_host_resources pod true) iface.id
        = (buildGlobalInterface pod iface).virtual_functions.allocated) := by
  have hglob : (buildGlobalInterface pod iface).virtual_functions.allocated
      = trackedSriovCount pod iface.id + otherSriovCount pod iface.id := by
    rw [buildGlobalInterface_spec]
    rfl
  have hperm := sortNodesByIndex_perm host.numanodes
  have hpermmap := hperm.map (fun nd => nd.index)
  have hnidx2 : ((sortNodesByIndex host.numanodes).map (fun nd => nd.index)).Nodup :=
    (hpermmap.nodup_iff).mpr hnidx
  have hn2 : n ∈ (sortNodesByIndex host.numanodes).map (fun nd => nd.index) :=
    (hpermmap.mem_iff).mpr hn
  have htrnd : ((trackedVms pod).map (fun vm => vm.id)).Nodup := by
    unfold trackedVms
    exact ((List.filter_sublist pod.vms).map (fun vm => vm.id)).nodup hvmids
  have hmain : numaVfAllocatedSum (get_vm_host_resources pod true) iface.id
      = trackedSriovCount pod iface.id := by
    unfold numaVfAllocatedSum get_vm_host_resources
    rw [hh]
    simp only [if_true]
    unfold update_detailed_resource_counters
    dsimp only
    rw [List.map_map]
    simp only [Function.comp_def]
    set nodes2 := sortNodesByIndex host.numanodes with hnodes2
    set vmis2 := List.filter (fun vi => (trackedVms pod).any fun vm => vm.id == vi.vm_id)
      pod.vm_interfaces with hvmis2
    set P := processVms nodes2 (nodeHugepages nodes2) host.interfaces vmis2
      (trackedVms pod) ([], initialNumaState nodes2) with hP
    rw [List.map_congr_left (fun nd _ =>
      numa_entry_vf_sum host.interfaces iface P.2.allocatedVfs n hids hmem hnuma nd
        (P.2.availableCores nd.index) (P.2.allocatedMemory nd.index)
        (nodeHugepages nodes2 nd.index) (P.2.allocatedHugepages nd.index)
        (P.2.vmsResources nd.index))]
    rw [sum_if_index_one n (P.2.allocatedVfs iface.id) nodes2 hnidx2 hn2]
    rw [hP]
    rw [processVms_vfs nodes2 (nodeHugepages nodes2) host.interfaces vmis2 iface n
      hids hmem hnuma hnidx2 hn2 (trackedVms pod) ([], initialNumaState nodes2)]
    have hinit : (([], initialNumaState nodes2) :
        List VMHostVirtualMachineResources × NumaState).2.allocatedVfs iface.id = 0 := rfl
    rw [hinit, Nat.zero_add]
    rw [sum_per_vm_counts iface.id vmis2 (trackedVms pod) htrnd]
    rw [hvmis2]
    rw [List.filter_filter]
    unfold trackedSriovCount sriovVmisTo
    rw [List.filter_filter]
    apply length_filter_ext
    intro vi _
    rw [trackedVms_any_id pod vi.vm_id hvmids]
    cases ha : (vi.host_interface_id == iface.id) <;>
      cases hs : isSriovAttachment vi <;>
      cases ht : vmTracked pod vi.vm_id <;>
      simp [ha, hs, ht]
  refine ⟨hmain, hglob, ?_⟩
  intro h0
  rw [hmain, hglob, h0]
  omega

/-- Counterexample to C4 as stated: in `podSampleC4` the only SRIOV
attachment to interface 1 comes from a VM of a non-tracked project, so the
global report shows an allocated VF count of 1 for the interface while the
per-node VF counts in the NUMA detail sum to 0 — the per-node counts do not
sum to the globally reported allocated count. -/
theorem c4_counterexample :
    (numaVfAllocatedSum (get_vm_host_resources podSampleC4 true) 1 = 0) ∧
    (((get_vm_host_resources podSampleC4 true).interfaces.map
        (fun e => (e.id, e.virtual_functions.allocated_tracked
          + e.virtual_functions.allocated_other))) = [(1, 1)]) ∧
    ((0 : ℕ) ≠ 1) :=
  ⟨by decide, by decide, by decide⟩

/-- Witness for C4's amended statement at the specification's SR-IOV
scenario (three tracked SRIOV attachments on one interface). -/
theorem c4_witness :
    (podSampleC4w.host = some ⟨[⟨0, [0, 1, 2, 3], 4096, none⟩], [⟨1, "eth0", some 0, 8⟩]⟩ ∧
     (⟨1, "eth0", some 0, 8⟩ : HostInterface) ∈ [(⟨1, "eth0", some 0, 8⟩ : HostInterface)] ∧
     (⟨1, "eth0", some 0, 8⟩ : HostInterface).numa_index = some 0 ∧
     (([(⟨1, "eth0", some 0, 8⟩ : HostInterface)]).map (fun hi => hi.id)).Nodup ∧
     (([(⟨0, [0, 1, 2, 3], 4096, none⟩ : NumaNode)]).map (fun nd => nd.index)).Nodup ∧
     (0 ∈ ([(⟨0, [0, 1, 2, 3], 4096, none⟩ : NumaNode)]).map (fun nd => nd.index)) ∧
     ((podSampleC4w.vms.map (fun vm => vm.id)).Nodup)) ∧
    ((numaVfAllocatedSum (get_vm_host_resources podSampleC4w true)
          (⟨1, "eth0", some 0, 8⟩ : HostInterface).id
        = trackedSriovCount podSampleC4w (⟨1, "eth0", some 0, 8⟩ : HostInterface).id) ∧
     ((buildGlobalInterface podSampleC4w ⟨1, "eth0", some 0, 8⟩).virtual_functions.allocated
        = trackedSriovCount podSampleC4w (⟨1, "eth0", some 0, 8⟩ : HostInterface).id
          + otherSriovCount podSampleC4w (⟨1, "eth0", some 0, 8⟩ : HostInterface).id) ∧
     (otherSriovCount podSampleC4w (⟨1, "eth0", some 0, 8⟩ : HostInterface).id = 0 →
       numaVfAllocatedSum (get_vm_host_resources podSampleC4w true)
           (⟨1, "eth0", some 0, 8⟩ : HostInterface).id
         = (buildGlobalInterface podSampleC4w
             ⟨1, "eth0", some 0, 8⟩).virtual_functions.allocated)) :=
  ⟨⟨rfl, by decide, rfl, by decide, by decide, by decide, by decide⟩,
   c4_pernode_vf_sum_tracked podSampleC4w
     ⟨[⟨0, [0, 1, 2, 3], 4096, none⟩], [⟨1, "eth0", some 0, 8⟩]⟩
     ⟨1, "eth0", some 0, 8⟩ 0 rfl (by decide) rfl (by decide) (by decide) (by decide)
     (by decide)⟩
